import Mathlib

/-!
# Verification of the tone3000 smart tone downloader pipeline

This file gives a shallow embedding, in Lean 4, of the core recommendation
and assembly pipeline of `src/src-tauri/src/main.rs`, and proves or refutes
the specified properties of its components.

Conventions of the embedding:
* Rust `String`/`&str` values are modelled as `List Char`.  Rust's
  `str::trim` (Unicode `White_Space`) is modelled by `rustTrim` over the
  full Unicode white-space code-point set; `str::to_lowercase` is modelled
  by ASCII lowercasing (all keyword sets in the source are ASCII).
* `serde_json::Value` is modelled by the inductive type `Json`; number
  literals keep their lexeme, and integer extraction mirrors
  `Value::as_i64` / `Value::as_u64` on integer lexemes (64-bit overflow of
  catalog identifiers and download counts is not modelled).
* Network and LLM effects are modelled by explicit oracles: a catalog is a
  function from the issued search request to a result list, the completion
  service is a function from the prompt to either a fatal transport error
  or a response document, and a file download is a function from URL to
  either bytes or an error.  The filesystem is an association list from
  path to contents.
* Iteration with early `break`/`continue` is embedded as structural
  recursion with the same tests in the same order.
-/

/-- Shorthand turning a string literal into the `List Char` representation
used for all embedded Rust strings. -/
def str (s : String) : List Char := s.toList

/-- The Unicode `White_Space` test used by Rust's `str::trim` and
`char::is_whitespace`. -/
def rustIsWhitespace (c : Char) : Bool :=
  let n := c.toNat
  (0x9 ≤ n && n ≤ 0xd) || n == 0x20 || n == 0x85 || n == 0xa0 || n == 0x1680 ||
    (0x2000 ≤ n && n ≤ 0x200a) || n == 0x2028 || n == 0x2029 || n == 0x202f ||
    n == 0x205f || n == 0x3000

/-- Left trim, as in Rust `str::trim_start`. -/
def rustTrimLeft (s : List Char) : List Char := s.dropWhile rustIsWhitespace

/-- Right trim, as in Rust `str::trim_end`. -/
def rustTrimRight (s : List Char) : List Char :=
  (s.reverse.dropWhile rustIsWhitespace).reverse

/-- Rust `str::trim`. -/
def rustTrim (s : List Char) : List Char := rustTrimRight (rustTrimLeft s)

/-- ASCII lowercasing, modelling `str::to_lowercase` on the ASCII strings
used by the source's keyword heuristics. -/
def toLowerStr (s : List Char) : List Char := s.map Char.toLower

/-- `leadsWith needle hay` holds when `needle` is an initial segment of
`hay` (Rust `str::starts_with`). -/
def leadsWith : List Char → List Char → Bool
  | [], _ => true
  | _ :: _, [] => false
  | a :: as_, b :: bs => a == b && leadsWith as_ bs

/-- Substring containment, as in Rust `str::contains`. -/
def hasSubstr (needle : List Char) : List Char → Bool
  | [] => needle.isEmpty
  | c :: rest => leadsWith needle (c :: rest) || hasSubstr needle rest

/-- Rust `str::split_once`: split at the first occurrence of `sep`. -/
def splitOnce (sep : List Char) : List Char → Option (List Char × List Char)
  | [] => if sep.isEmpty then some ([], []) else none
  | c :: rest =>
    if leadsWith sep (c :: rest) then some ([], (c :: rest).drop sep.length)
    else (splitOnce sep rest).map (fun p => (c :: p.1, p.2))

/-- `sanitize_line` from the source: replace `\r` and `\n` by spaces, then
trim. -/
def sanitize_line (text : List Char) : List Char :=
  rustTrim ((text.map (fun c => if c = '\r' then ' ' else c)).map
    (fun c => if c = '\n' then ' ' else c))

/-! ## The JSON document model (`serde_json::Value`) -/

/-- JSON documents.  Numbers keep their source lexeme; objects are
association lists with unique keys (duplicate keys overwrite, as in
`serde_json`'s map insertion). -/
inductive Json where
  | jnull : Json
  | jbool (b : Bool) : Json
  | jnum (lexeme : List Char) : Json
  | jstr (s : List Char) : Json
  | jarr (xs : List Json) : Json
  | jobj (fields : List (List Char × Json)) : Json

/-- `Value::get` on an object; `None` on every other document. -/
def jget (j : Json) (key : List Char) : Option Json :=
  match j with
  | .jobj fields => (fields.find? (fun p => p.1 == key)).map (fun p => p.2)
  | _ => none

/-- `Value::as_str`. -/
def Json.asStr : Json → Option (List Char)
  | .jstr s => some s
  | _ => none

/-- `Value::as_array`. -/
def Json.asArr : Json → Option (List Json)
  | .jarr xs => some xs
  | _ => none

/-- `Value::as_bool`. -/
def Json.asBool : Json → Option Bool
  | .jbool b => some b
  | _ => none

/-- `Value::is_object`. -/
def Json.isObj : Json → Bool
  | .jobj _ => true
  | _ => false

/-- Digits of an integer lexeme to a natural number. -/
def digitsToNat (ds : List Char) : Nat :=
  ds.foldl (fun acc c => acc * 10 + (c.toNat - ('0').toNat)) 0

/-- Integer value of a pure integer JSON number lexeme (optional minus then
digits, no fraction, no exponent); models when `serde_json` stores a parsed
number as an integer, so `as_i64`/`as_u64` succeed. -/
def parseIntLexeme : List Char → Option Int
  | '-' :: ds =>
    if ds ≠ [] ∧ ds.all Char.isDigit then some (-(digitsToNat ds : Int)) else none
  | ds => if ds ≠ [] ∧ ds.all Char.isDigit then some ((digitsToNat ds : Int)) else none

/-- Integer reading of a number document (`as_i64` composed with the
`as_u64` fallback, 64-bit width not modelled). -/
def Json.asInt : Json → Option Int
  | .jnum lexeme => parseIntLexeme lexeme
  | _ => none

/-- Rust `i64::from_str`: optional sign, then one or more digits. -/
def parseRustI64 : List Char → Option Int
  | '+' :: ds =>
    if ds ≠ [] ∧ ds.all Char.isDigit then some ((digitsToNat ds : Int)) else none
  | '-' :: ds =>
    if ds ≠ [] ∧ ds.all Char.isDigit then some (-(digitsToNat ds : Int)) else none
  | ds => if ds ≠ [] ∧ ds.all Char.isDigit then some ((digitsToNat ds : Int)) else none

/-- `value_as_i64` from the source. -/
def value_as_i64 (v : Option Json) : Int :=
  match v with
  | some x =>
    match x.asInt with
    | some n => n
    | none =>
      match x.asStr with
      | some s => (parseRustI64 s).getD 0
      | none => 0
  | none => 0

/-- `value_as_string` from the source. -/
def value_as_string (v : Option Json) : List Char :=
  match v.bind Json.asStr with
  | some s => s
  | none => []

/-- `tone_id` from the source. -/
def tone_id (tone : Json) : Option Int :=
  (jget tone (str "id")).bind (fun v =>
    match v.asInt with
    | some n => some n
    | none => v.asStr.bind parseRustI64)

/-- `tone_downloads` from the source. -/
def tone_downloads (tone : Json) : Int :=
  value_as_i64 (jget tone (str "downloads_count"))

/-! ## JSON parsing (`serde_json::Deserializer::from_str` for one `Value`)

The deserializer reads exactly one JSON value from the front of the input
(after leading JSON whitespace) and ignores anything after it — the source
relies on this to accept objects followed by trailing prose.  Recursion is
bounded by a fuel argument; callers pass `length + 1`, which is ample since
every recursive step consumes at least one input character. -/

/-- JSON insignificant whitespace (space, tab, newline, carriage return). -/
def jsonSkipWs : List Char → List Char
  | [] => []
  | c :: rest =>
    if c = ' ' ∨ c = '\t' ∨ c = '\n' ∨ c = '\r' then jsonSkipWs rest else c :: rest

/-- Span of ASCII digits. -/
def spanDigits : List Char → List Char × List Char
  | [] => ([], [])
  | c :: rest =>
    if c.isDigit then
      let p := spanDigits rest
      (c :: p.1, p.2)
    else ([], c :: rest)

/-- Integer part of a JSON number: `0`, or a nonzero digit then digits. -/
def parseNumInt : List Char → Option (List Char × List Char)
  | [] => none
  | '0' :: rest => some (['0'], rest)
  | c :: rest =>
    if c.isDigit then
      let p := spanDigits rest
      some (c :: p.1, p.2)
    else none

/-- Optional fraction part of a JSON number. -/
def parseNumFrac : List Char → Option (List Char × List Char)
  | '.' :: rest =>
    let p := spanDigits rest
    if p.1.isEmpty then none else some ('.' :: p.1, p.2)
  | s => some ([], s)

/-- Optional exponent part of a JSON number. -/
def parseNumExp : List Char → Option (List Char × List Char)
  | c :: rest =>
    if c = 'e' ∨ c = 'E' then
      let signAndRest : List Char × List Char :=
        match rest with
        | '+' :: r2 => (['+'], r2)
        | '-' :: r2 => (['-'], r2)
        | r2 => ([], r2)
      let p := spanDigits signAndRest.2
      if p.1.isEmpty then none else some (c :: signAndRest.1 ++ p.1, p.2)
    else some ([], c :: rest)
  | [] => some ([], [])

/-- A whole JSON number lexeme starting at the first character. -/
def parseNumber (s : List Char) : Option (List Char × List Char) :=
  let signAndRest : List Char × List Char :=
    match s with
    | '-' :: r => (['-'], r)
    | _ => ([], s)
  (parseNumInt signAndRest.2).bind (fun ip =>
    (parseNumFrac ip.2).bind (fun fp =>
      (parseNumExp fp.2).map (fun ep =>
        (signAndRest.1 ++ ip.1 ++ fp.1 ++ ep.1, ep.2))))

/-- Hex digit test. -/
def isHexDigitCh (c : Char) : Bool :=
  c.isDigit || ('a' ≤ c && c ≤ 'f') || ('A' ≤ c && c ≤ 'F')

/-- Hex digit value. -/
def hexVal (c : Char) : Nat :=
  if c.isDigit then c.toNat - ('0').toNat
  else if 'a' ≤ c && c ≤ 'f' then c.toNat - ('a').toNat + 10
  else c.toNat - ('A').toNat + 10

/-- Body of a JSON string after the opening quote: content and remainder
after the closing quote.  Raw control characters are rejected, standard
escapes are decoded (`\u` decodes the BMP code point; surrogate pairing is
not modelled, no claim depends on it). -/
def parseStringBody : List Char → Option (List Char × List Char)
  | [] => none
  | c :: rest =>
    if c = '"' then some ([], rest)
    else if c = '\\' then
      match rest with
      | [] => none
      | e :: rest2 =>
        if e = '"' ∨ e = '\\' ∨ e = '/' then
          (parseStringBody rest2).map (fun p => (e :: p.1, p.2))
        else if e = 'b' then (parseStringBody rest2).map (fun p => ('\x08' :: p.1, p.2))
        else if e = 'f' then (parseStringBody rest2).map (fun p => ('\x0c' :: p.1, p.2))
        else if e = 'n' then (parseStringBody rest2).map (fun p => ('\n' :: p.1, p.2))
        else if e = 'r' then (parseStringBody rest2).map (fun p => ('\r' :: p.1, p.2))
        else if e = 't' then (parseStringBody rest2).map (fun p => ('\t' :: p.1, p.2))
        else if e = 'u' then
          match rest2 with
          | h1 :: h2 :: h3 :: h4 :: rest3 =>
            if isHexDigitCh h1 && isHexDigitCh h2 && isHexDigitCh h3 && isHexDigitCh h4 then
              (parseStringBody rest3).map (fun p =>
                (Char.ofNat (((hexVal h1 * 16 + hexVal h2) * 16 + hexVal h3) * 16 + hexVal h4)
                  :: p.1, p.2))
            else none
          | _ => none
        else none
    else if c.toNat < 0x20 then none
    else (parseStringBody rest).map (fun p => (c :: p.1, p.2))

/-- Insertion into an object under construction: duplicate keys overwrite
in place, as in `serde_json`'s map. -/
def objInsert (fields : List (List Char × Json)) (k : List Char) (v : Json) :
    List (List Char × Json) :=
  if fields.any (fun p => p.1 == k) then
    fields.map (fun p => if p.1 == k then (k, v) else p)
  else fields ++ [(k, v)]

mutual

/-- Parse one JSON value from the front of the input. -/
def parseValue : Nat → List Char → Option (Json × List Char)
  | 0, _ => none
  | fuel + 1, s =>
    match jsonSkipWs s with
    | [] => none
    | c :: rest =>
      if c = '{' then
        match jsonSkipWs rest with
        | '}' :: r2 => some (.jobj [], r2)
        | _ => parseObjEntries fuel rest []
      else if c = '[' then
        match jsonSkipWs rest with
        | ']' :: r2 => some (.jarr [], r2)
        | _ => parseArrEntries fuel rest []
      else if c = '"' then (parseStringBody rest).map (fun p => (.jstr p.1, p.2))
      else if c = 't' then
        if leadsWith (str "rue") rest then some (.jbool true, rest.drop 3) else none
      else if c = 'f' then
        if leadsWith (str "alse") rest then some (.jbool false, rest.drop 4) else none
      else if c = 'n' then
        if leadsWith (str "ull") rest then some (.jnull, rest.drop 3) else none
      else if c = '-' ∨ c.isDigit then
        (parseNumber (c :: rest)).map (fun p => (.jnum p.1, p.2))
      else none

/-- Parse the entries of a non-empty object body. -/
def parseObjEntries : Nat → List Char → List (List Char × Json) →
    Option (Json × List Char)
  | 0, _, _ => none
  | fuel + 1, s, acc =>
    match jsonSkipWs s with
    | '"' :: r1 =>
      match parseStringBody r1 with
      | none => none
      | some (key, r2) =>
        match jsonSkipWs r2 with
        | ':' :: r3 =>
          match parseValue fuel r3 with
          | none => none
          | some (v, r4) =>
            match jsonSkipWs r4 with
            | ',' :: r5 => parseObjEntries fuel r5 (objInsert acc key v)
            | '}' :: r5 => some (.jobj (objInsert acc key v), r5)
            | _ => none
        | _ => none
    | _ => none

/-- Parse the entries of a non-empty array body. -/
def parseArrEntries : Nat → List Char → List Json → Option (Json × List Char)
  | 0, _, _ => none
  | fuel + 1, s, acc =>
    match parseValue fuel s with
    | none => none
    | some (v, r1) =>
      match jsonSkipWs r1 with
      | ',' :: r2 => parseArrEntries fuel r2 (acc ++ [v])
      | ']' :: r2 => some (.jarr (acc ++ [v]), r2)
      | _ => none

end

/-- `parse_json_object_segment` from the source: deserialize one value from
the front of the text (trailing content ignored) and keep it only when it
is an object. -/
def parse_json_object_segment (text : List Char) : Option Json :=
  match parseValue (text.length + 1) text with
  | some (v, _) => if v.isObj then some v else none
  | none => none

/-- The code-fence stripping step of `parse_json_object_from_text`. -/
def strip_code_fence (raw : List Char) : List Char :=
  if leadsWith (str "```json") raw then
    match splitOnce (str "```json") raw with
    | some (_, rest) =>
      match splitOnce (str "```") rest with
      | some (inside, _) => rustTrim inside
      | none => raw
    | none => raw
  else if leadsWith (str "```") raw then
    match splitOnce (str "```") raw with
    | some (_, rest) =>
      match splitOnce (str "```") rest with
      | some (inside, _) => rustTrim inside
      | none => raw
    | none => raw
  else raw

/-- The left-to-right brace scan of `parse_json_object_from_text`: at each
`{`, attempt to parse the suffix as an object. -/
def scan_braces : List Char → Option Json
  | [] => none
  | c :: rest =>
    if c = '{' then
      match parse_json_object_segment (c :: rest) with
      | some v => some v
      | none => scan_braces rest
    else scan_braces rest

/-- `parse_json_object_from_text` from the source: the Structured-Response
Extractor. -/
def parse_json_object_from_text (text : List Char) : Except (List Char) Json :=
  if (rustTrim text).isEmpty then .error (str "Empty Gemini response")
  else
    match parse_json_object_segment (rustTrim text) with
    | some v => .ok v
    | none =>
      match parse_json_object_segment (strip_code_fence (rustTrim text)) with
      | some v => .ok v
      | none =>
        match parse_json_object_segment (sanitize_line (strip_code_fence (rustTrim text))) with
        | some v => .ok v
        | none =>
          match scan_braces (strip_code_fence (rustTrim text)) with
          | some v => .ok v
          | none =>
            .error (str "Invalid JSON from Gemini: " ++
              (strip_code_fence (rustTrim text)).take 200)

/-! ## Keyword heuristics (`text_contains_boost` and friends) -/

/-- The boost/overdrive keyword set of `text_contains_boost`. -/
def boost_keywords : List (List Char) :=
  [str "boost", str "boosted", str "overdrive", str "od ", str " od",
   str "tubescreamer", str "tube screamer", str "ts808", str "ts-808",
   str "ts9", str "ts-9", str "sd1", str "sd-1", str "klon",
   str "treble booster", str "rangemaster"]

/-- `text_contains_boost` from the source. -/
def text_contains_boost (text : List Char) : Bool :=
  let t := toLowerStr text
  if t.isEmpty then false
  else boost_keywords.any (fun k => hasSubstr k t)

/-- `tone_contains_boost` from the source: an `amp` whose title and
description contain a boost keyword. -/
def tone_contains_boost (tone : Json) : Bool :=
  if toLowerStr (value_as_string (jget tone (str "gear"))) ≠ str "amp" then false
  else
    text_contains_boost
      (value_as_string (jget tone (str "title")) ++ ['\n'] ++
        value_as_string (jget tone (str "description")))

/-- The preamp/boost pedal keyword set of `tone_is_preamp_or_boost_pedal`. -/
def pedal_keywords : List (List Char) :=
  [str "preamp", str "boost", str "overdrive", str "tubescreamer",
   str "tube screamer", str "ts808", str "ts-808", str "ts9", str "ts-9",
   str "sd-1", str "sd1", str "klon"]

/-- `tone_is_preamp_or_boost_pedal` from the source. -/
def tone_is_preamp_or_boost_pedal (tone : Json) : Bool :=
  if toLowerStr (value_as_string (jget tone (str "gear"))) ≠ str "pedal" then false
  else
    let text := toLowerStr
      (value_as_string (jget tone (str "title")) ++ ['\n'] ++
        value_as_string (jget tone (str "description")))
    pedal_keywords.any (fun k => hasSubstr k text)

/-! ## The Selection Engine (`postprocess_selected_indices`,
`select_best_tones`) -/

/-- Indexing into a tone list (all uses are guarded in range). -/
def toneAt (tones : List Json) (i : Nat) : Json := tones.getD i Json.jnull

/-- Step 1 of the post-processing: keep in-range indices, first occurrence
only, preserving order (the `seen : HashSet` loop of the source). -/
def dedup_indices (len : Nat) (seen : List Nat) : List Nat → List Nat
  | [] => []
  | idx :: rest =>
    if idx < len ∧ idx ∉ seen then idx :: dedup_indices len (seen ++ [idx]) rest
    else dedup_indices len seen rest

/-- `amp_has_boost` of the post-processing: some currently selected
candidate is an amp with a boost keyword. -/
def selection_amp_has_boost (tones : List Json) (selected_indices : List Nat) : Bool :=
  (dedup_indices tones.length [] selected_indices).any
    (fun i => tone_contains_boost (toneAt tones i))

/-- Steps 1–2 of the post-processing: the deduplicated selection, with
preamp/boost pedals removed when `amp_has_boost` holds. -/
def boost_filtered_selection (tones : List Json) (selected_indices : List Nat) :
    List Nat :=
  let unique := dedup_indices tones.length [] selected_indices
  if selection_amp_has_boost tones selected_indices then
    unique.filter (fun i => ! tone_is_preamp_or_boost_pedal (toneAt tones i))
  else unique

/-- The candidate index order used by the backfill: all indices of the tone
list sorted by descending download count (`sort_by_key(-downloads)` is a
stable sort, as is `List.insertionSort`). -/
def sorted_pool_indices (tones : List Json) : List Nat :=
  List.insertionSort
    (fun i j => tone_downloads (toneAt tones j) ≤ tone_downloads (toneAt tones i))
    (List.range tones.length)

/-- Step 3 of the post-processing: walk the sorted indices, skipping
already selected indices and (when `amp_has_boost`) preamp/boost pedals,
appending until the maximum is reached (checked after each push, as in the
source loop) or the indices are exhausted. -/
def backfill_indices (tones : List Json) (amp_has_boost : Bool)
    (max_selections : Nat) : List Nat → List Nat → List Nat
  | [], acc => acc
  | idx :: rest, acc =>
    if idx ∈ acc then backfill_indices tones amp_has_boost max_selections rest acc
    else if amp_has_boost ∧ tone_is_preamp_or_boost_pedal (toneAt tones idx) = true then
      backfill_indices tones amp_has_boost max_selections rest acc
    else
      let acc2 := acc ++ [idx]
      if max_selections ≤ acc2.length then acc2
      else backfill_indices tones amp_has_boost max_selections rest acc2

/-- `postprocess_selected_indices` from the source. -/
def postprocess_selected_indices (tones : List Json) (selected_indices : List Nat)
    (max_selections : Nat) : List Nat :=
  let unique := boost_filtered_selection tones selected_indices
  if max_selections ≤ unique.length then unique.take max_selections
  else
    backfill_indices tones (selection_amp_has_boost tones selected_indices)
      max_selections (sorted_pool_indices tones) unique

/-- The candidate restriction of `select_best_tones`: sort the pool by
descending downloads (stable) and truncate to the top 15. -/
def top_candidates (tones : List Json) : List Json :=
  (List.insertionSort (fun a b => tone_downloads b ≤ tone_downloads a) tones).take 15

/-- An array element accepted as an index (`as_u64`, with the non-negative
`as_i64` fallback — the same set of documents). -/
def json_index (v : Json) : Option Nat :=
  match v.asInt with
  | some n => if 0 ≤ n then some n.toNat else none
  | none => none

/-- The `selected_indices` field of a completion response. -/
def parse_selected_indices (raw : Json) : List Nat :=
  (((jget raw (str "selected_indices")).bind Json.asArr).getD []).filterMap json_index

/-- One `selection_reasons` entry: an `index` number and a non-empty
sanitized `reason` string. -/
def parse_reason_entry (item : Json) : Option (Nat × List Char) :=
  match (jget item (str "index")).bind json_index with
  | none => none
  | some index =>
    match ((jget item (str "reason")).bind Json.asStr).map sanitize_line with
    | none => none
    | some reason => if reason.isEmpty then none else some (index, reason)

/-- The `selection_reasons` field of a completion response, as an
association list (later entries overwrite earlier ones, as in the
`HashMap` collection of the source). -/
def parse_reason_map (raw : Json) : List (Nat × List Char) :=
  (((jget raw (str "selection_reasons")).bind Json.asArr).getD []).filterMap
    parse_reason_entry

/-- Lookup in the reason map (last entry wins). -/
def reason_lookup (m : List (Nat × List Char)) (k : Nat) : Option (List Char) :=
  (m.reverse.find? (fun p => p.1 == k)).map (fun p => p.2)

/-- `select_best_tones` from the source, with the completion call made
explicit: `gemini` is the outcome of `gemini_generate_json` for the
selection prompt.  Returns the selected tones and the reason strings. -/
def select_best_tones (tones : List Json) (max_selections : Nat)
    (gemini : Except (List Char) Json) : List Json × List (List Char) :=
  if tones.isEmpty then ([], [])
  else
    let candidates := top_candidates tones
    match gemini with
    | .error _ =>
      let indices := (List.range candidates.length).take max_selections
      let selected := indices.map (fun i => toneAt candidates i)
      let reasons := selected.map (fun t =>
        value_as_string (jget t (str "title")) ++
          str " selected by fallback ranking (top downloads).")
      (selected, reasons)
    | .ok raw =>
      let indices :=
        postprocess_selected_indices candidates (parse_selected_indices raw)
          max_selections
      let selected := indices.map (fun i => toneAt candidates i)
      let reasons := indices.map (fun i =>
        match reason_lookup (parse_reason_map raw) i with
        | some r => r
        | none =>
          value_as_string (jget (toneAt candidates i) (str "title")) ++
            str " selected for relevance and popularity.")
      (selected, reasons)

/-! ## The Completion Client (`gemini_response_text`,
`gemini_generate_json`) -/

/-- `gemini_response_text` from the source: the top-level `text` field when
it trims non-empty, otherwise the joined `parts` texts of the first
candidate. -/
def gemini_response_text (resp : Json) : List Char :=
  let direct :=
    match (jget resp (str "text")).bind Json.asStr with
    | some t => rustTrim t
    | none => []
  if ¬ direct.isEmpty then direct
  else
    match ((jget resp (str "candidates")).bind Json.asArr).bind List.head? with
    | none => []
    | some cand =>
      match ((jget cand (str "content")).bind
          (fun content => jget content (str "parts"))).bind Json.asArr with
      | none => []
      | some parts =>
        rustTrim
          ((parts.filterMap (fun p => (jget p (str "text")).bind Json.asStr)).foldl
            (· ++ ·) [])

/-- Outcome of one HTTP round trip to the completion service: a fatal
failure (transport error, non-2xx status, or unparsable response body — all
propagated by `?` in the source) or a response document. -/
inductive ServiceResp where
  | fatal (msg : List Char) : ServiceResp
  | success (resp : Json) : ServiceResp

/-- The corrective instruction appended to the prompt on the single retry. -/
def gemini_retry_suffix : List Char :=
  str "\n\nIMPORTANT: Your previous response was invalid JSON. Return ONLY valid JSON that matches the required schema. Do not include newlines inside string values." 

/-- The prefix of the final both-attempts-failed error. -/
def gemini_fail_lead : List Char := str "Failed to get valid JSON from Gemini: " 

/-- `gemini_generate_json` from the source, with the HTTP calls made
explicit via the `service` oracle (keyed by the prompt actually sent).
The `for attempt in 0..2` loop is unrolled: the result is paired with the
list of prompts sent, in order. -/
def gemini_generate_json (service : List Char → ServiceResp) (prompt : List Char) :
    Except (List Char) Json × List (List Char) :=
  match service prompt with
  | .fatal e => (.error e, [prompt])
  | .success resp =>
    match parse_json_object_from_text (gemini_response_text resp) with
    | .ok v => (.ok v, [prompt])
    | .error _ =>
      let retry_prompt := prompt ++ gemini_retry_suffix
      match service retry_prompt with
      | .fatal e => (.error e, [prompt, retry_prompt])
      | .success resp2 =>
        match parse_json_object_from_text (gemini_response_text resp2) with
        | .ok v => (.ok v, [prompt, retry_prompt])
        | .error e2 => (.error (gemini_fail_lead ++ e2), [prompt, retry_prompt])

/-! ## `normalize_gemini_model` -/

/-- `DEFAULT_GEMINI_MODEL` from the source. -/
def DEFAULT_GEMINI_MODEL : List Char := str "gemini-2.5-pro" 

/-- The character set allowed in a requested completion model name
(ASCII alphanumeric, `.`, `-`, `_`). -/
def gemini_model_char_allowed (c : Char) : Bool :=
  c.isAlphanum || c = '.' || c = '-' || c = '_'

/-- `normalize_gemini_model` from the source. -/
def normalize_gemini_model (requested_model : Option (List Char)) : List Char :=
  match requested_model with
  | none => DEFAULT_GEMINI_MODEL
  | some raw =>
    let raw_model := rustTrim raw
    if raw_model.isEmpty then DEFAULT_GEMINI_MODEL
    else if raw_model.all gemini_model_char_allowed then raw_model
    else DEFAULT_GEMINI_MODEL

/-! ## The Request Analyzer (`analyze_tone_request`) -/

/-- The `Analysis` record of the source. -/
structure Analysis where
  search_queries : List (List Char)
  gear_type : Option (List Char)
  description : List Char
  fallback_queries : List (List Char)
  explanation_steps : List (List Char)
deriving DecidableEq

/-- The hard-coded fallback document substituted when the completion call
fails during request analysis. -/
def fallback_analysis_raw (user_request : List Char) : Json :=
  Json.jobj
    [(str "search_queries", Json.jarr [Json.jstr (sanitize_line user_request)]),
     (str "gear_type", Json.jnull),
     (str "description",
      Json.jstr (str "Fallback analysis used because Gemini response was invalid.")),
     (str "fallback_queries", Json.jarr []),
     (str "explanation_steps",
      Json.jarr
        [Json.jstr (str "Gemini did not return valid JSON for analysis."),
         Json.jstr (str "Used the original user request directly as the main search query."),
         Json.jstr (str "Continued with neutral gear filter.")])]

/-- The string-list reading shared by `search_queries`/`fallback_queries`
(`max_items = 3`) and `parse_explanation_lines` (`max_items` as given):
keep string items, sanitize, drop empties, cap the count. -/
def parse_string_items (raw : Json) (key : List Char) (max_items : Nat) :
    List (List Char) :=
  match (jget raw key).bind Json.asArr with
  | some arr =>
    (((arr.filterMap Json.asStr).map sanitize_line).filter
      (fun s => ¬ s.isEmpty)).take max_items
  | none => []

/-- `analyze_tone_request` from the source, with the completion call made
explicit; `gemini` is the outcome of `gemini_generate_json` for the
analysis prompt. -/
def analyze_tone_request (user_request : List Char)
    (gemini : Except (List Char) Json) : Analysis :=
  let raw :=
    match gemini with
    | .ok v => v
    | .error _ => fallback_analysis_raw user_request
  let search_queries := parse_string_items raw (str "search_queries") 3
  let fallback_queries := parse_string_items raw (str "fallback_queries") 3
  let normalized_search :=
    if search_queries.isEmpty then [sanitize_line user_request] else search_queries
  let gear_type :=
    (((jget raw (str "gear_type")).bind Json.asStr).map sanitize_line).bind
      (fun g => if g = str "amp" ∨ g = str "ir" ∨ g = str "pedal" then some g else none)
  let description :=
    match ((jget raw (str "description")).bind Json.asStr).map sanitize_line with
    | some d => if d.isEmpty then str "Request analysis completed" else d
    | none => str "Request analysis completed" 
  let explanation_steps :=
    let steps := parse_string_items raw (str "explanation_steps") 5
    if steps.isEmpty then
      [str "Target tone request: " ++ sanitize_line user_request,
       str "Primary search queries: " ++
         List.intercalate (str ", ") normalized_search] ++
        (match gear_type with
         | some g => [str "Focus on gear type: " ++ g]
         | none => [])
    else steps
  { search_queries := normalized_search, gear_type := gear_type,
    description := description, fallback_queries := fallback_queries,
    explanation_steps := explanation_steps }

/-! ## The Candidate Pool Builder (`build_gear_pool`, `build_tone_pool`) -/

/-- The catalog search request assembled by `search_tones`: the query, the
optional gear filter (dropped when empty), the page size capped at 25, and
the fixed all-time-downloads sort. -/
structure SearchCall where
  query : List Char
  gear : Option (List Char)
  page_size : Nat
  sort : List Char
deriving DecidableEq

/-- `search_tones` request construction from the source. -/
def search_tones_call (query : List Char) (gear : Option (List Char))
    (page_size : Nat) : SearchCall :=
  { query := query,
    gear :=
      match gear with
      | some g => if g.isEmpty then none else some g
      | none => none,
    page_size := min page_size 25,
    sort := str "downloads-all-time" }

/-- Accumulated pool-building state: the deduplicated tones, the set of
seen catalog identifiers, and the search calls issued so far. -/
structure PoolState where
  tones : List Json
  seen : List Int
  calls : List SearchCall

/-- One result row: skip tones without an identifier, add each unseen
identifier once (the `seen_ids.insert` guard). -/
def pool_consider_tone (st : PoolState) (tone : Json) : PoolState :=
  match tone_id tone with
  | none => st
  | some id =>
    if id ∈ st.seen then st
    else { st with tones := st.tones ++ [tone], seen := st.seen ++ [id] }

/-- The per-query result loop shared by both pool builders: keep at most
`max_results` results, deduplicating by identifier. -/
def pool_add_results (max_results : Nat) (result : List Json) (st : PoolState) :
    PoolState :=
  (result.take max_results).foldl pool_consider_tone st

/-- One search: record the call and fold in its results. -/
def pool_search_step (catalog : SearchCall → List Json) (gear : Option (List Char))
    (max_results : Nat) (query : List Char) (st : PoolState) : PoolState :=
  pool_add_results max_results (catalog (search_tones_call query gear 25))
    { st with calls := st.calls ++ [search_tones_call query gear 25] }

/-- The primary phase: one search per primary query, unconditionally. -/
def pool_primary_phase (catalog : SearchCall → List Json)
    (gear : Option (List Char)) (max_results : Nat) (queries : List (List Char))
    (st : PoolState) : PoolState :=
  queries.foldl (fun acc q => pool_search_step catalog gear max_results q acc) st

/-- The fallback phase: before each query the loop stops once the pool has
reached `max_results`. -/
def pool_fallback_phase (catalog : SearchCall → List Json)
    (gear : Option (List Char)) (max_results : Nat) :
    List (List Char) → PoolState → PoolState
  | [], st => st
  | q :: rest, st =>
    if max_results ≤ st.tones.length then st
    else
      pool_fallback_phase catalog gear max_results rest
        (pool_search_step catalog gear max_results q st)

/-- `build_gear_pool` from the source, over a catalog oracle; the returned
state also carries the issued search calls. -/
def build_gear_pool (catalog : SearchCall → List Json)
    (primary_queries fallback_queries : List (List Char)) (gear : List Char)
    (max_results : Nat) : PoolState :=
  if (pool_primary_phase catalog (some gear) max_results primary_queries
      { tones := [], seen := [], calls := [] }).tones.length < 10 then
    pool_fallback_phase catalog (some gear) max_results fallback_queries
      (pool_primary_phase catalog (some gear) max_results primary_queries
        { tones := [], seen := [], calls := [] })
  else
    pool_primary_phase catalog (some gear) max_results primary_queries
      { tones := [], seen := [], calls := [] }

/-- `build_tone_pool` from the source (the relaxed variant driven by an
`Analysis`): identical two-phase structure, with the analysis gear filter
and an additional non-empty check on the fallback list. -/
def build_tone_pool (catalog : SearchCall → List Json) (analysis : Analysis)
    (max_results : Nat) : PoolState :=
  if (pool_primary_phase catalog analysis.gear_type max_results
        analysis.search_queries { tones := [], seen := [], calls := [] }).tones.length < 10 ∧
      ¬ analysis.fallback_queries.isEmpty then
    pool_fallback_phase catalog analysis.gear_type max_results
      analysis.fallback_queries
      (pool_primary_phase catalog analysis.gear_type max_results
        analysis.search_queries { tones := [], seen := [], calls := [] })
  else
    pool_primary_phase catalog analysis.gear_type max_results
      analysis.search_queries { tones := [], seen := [], calls := [] }

/-! ## The Rig Assembler cabinet loop (`select_best_cab_for_amp` and the
used-cabinet bookkeeping of `run_download_inner`) -/

/-- `select_best_cab_for_amp` from the source, with the completion call
made explicit.  On an empty pool: no cabinet.  Otherwise the completion
answer's `selected_index` (defaulting to 0 when missing or out of range),
or index 0 with a fallback reason when the completion failed. -/
def select_best_cab_for_amp (gemini : Except (List Char) Json)
    (cab_candidates : List Json) : Option (Json × List Char) :=
  if cab_candidates.isEmpty then none
  else
    match gemini with
    | .ok value =>
      let idx :=
        match (jget value (str "selected_index")).bind json_index with
        | some i => if i < cab_candidates.length then i else 0
        | none => 0
      let reason :=
        match ((jget value (str "reason")).bind Json.asStr).map sanitize_line with
        | some r => if r.isEmpty then str "Selected as best cab/IR match for the amp." else r
        | none => str "Selected as best cab/IR match for the amp." 
      some (toneAt cab_candidates idx, reason)
    | .error err =>
      some (toneAt cab_candidates 0,
        str "Fallback cab selection by popularity (Gemini issue: " ++ err ++ [')'])

/-- Whether a cabinet candidate's identifier is still unused (tones with no
identifier pass the filter, as in the source's `unwrap_or(true)`). -/
def cab_id_free (used : List Int) (tone : Json) : Bool :=
  match tone_id tone with
  | some id => decide (id ∉ used)
  | none => true

/-- The per-preset cabinet inputs of one `run_download_inner` loop
iteration: the needs-cab judgment, the cabinet pool built for this preset,
and the completion outcome for the cab-selection prompt. -/
structure PresetCabInput where
  needs_cab : Bool
  cab_pool : List Json
  gemini_cab : Except (List Char) Json

/-- One iteration of the preset loop, cabinet part: filter the pool by the
used-identifier set, fall back to the unfiltered pool when the filtered one
is empty, select, and record the selected identifier.  Returns the cab slot
and the updated used set. -/
def choose_preset_cab (used : List Int) (inp : PresetCabInput) :
    Option Json × List Int :=
  if ¬ inp.needs_cab then (none, used)
  else
    match select_best_cab_for_amp inp.gemini_cab
        (if (inp.cab_pool.filter (cab_id_free used)).isEmpty then inp.cab_pool
         else inp.cab_pool.filter (cab_id_free used)) with
    | some (cab, _) =>
      (some cab,
       match tone_id cab with
       | some id => used ++ [id]
       | none => used)
    | none => (none, used)

/-- The cab slots of a whole run, threading the run-scoped used set. -/
def assemble_cab_slots (used : List Int) : List PresetCabInput → List (Option Json)
  | [] => []
  | inp :: rest =>
    let step := choose_preset_cab used inp
    step.1 :: assemble_cab_slots step.2 rest

/-- The cabinet identifiers recorded in `cab` slots. -/
def cab_slot_ids (slots : List (Option Json)) : List Int :=
  slots.filterMap (fun c => c.bind tone_id)

/-- The side condition under which the run never reaches the
reuse-the-unfiltered-pool fallback: at each preset that needs a cabinet and
has a non-empty pool, at least one candidate is still unused. -/
def cab_run_safe (used : List Int) : List PresetCabInput → Bool
  | [] => true
  | inp :: rest =>
    ((!inp.needs_cab) || inp.cab_pool.isEmpty ||
      !(inp.cab_pool.filter (cab_id_free used)).isEmpty) &&
      cab_run_safe (choose_preset_cab used inp).2 rest

/-! ## The Model Filter & Downloader file loop
(`safe_filename`, `normalize_model_filename`, and the per-model loop of
`download_models_for_tone_component`) -/

/-- Split a character list on a separator character. -/
def splitOnChar (sep : Char) : List Char → List (List Char)
  | [] => [[]]
  | c :: rest =>
    let ps := splitOnChar sep rest
    if c = sep then [] :: ps
    else
      match ps with
      | [] => [[c]]
      | p :: pr => (c :: p) :: pr

/-- `Path::file_name` for the common cases the source can meet: the last
non-empty, non-`.` component; the original input when there is none or it
is `..` (the source's `unwrap_or(name)`).  Only `/` is treated as a
separator. -/
def path_file_name (name : List Char) : List Char :=
  let segs := (splitOnChar '/' name).filter (fun s => ¬ s.isEmpty ∧ s ≠ str ".")
  match segs.getLast? with
  | some last => if last = str ".." then name else last
  | none => name

/-- Rust `char::is_control` (Unicode `Cc`: C0, DEL, C1). -/
def rustIsControl (c : Char) : Bool :=
  c.toNat < 0x20 || (0x7f ≤ c.toNat && c.toNat ≤ 0x9f)

/-- The reserved characters replaced by `_` in `safe_filename`. -/
def reserved_filename_chars : List Char := str "<>:\"/\\|?*" 

/-- Trim characters of a set from both ends (Rust `str::trim_matches`). -/
def trimMatches (set : List Char) (s : List Char) : List Char :=
  ((s.dropWhile (fun c => c ∈ set)).reverse.dropWhile (fun c => c ∈ set)).reverse

/-- `safe_filename` from the source. -/
def safe_filename (name : List Char) : List Char :=
  let basename := path_file_name name
  let out := basename.map
    (fun c => if rustIsControl c ∨ c ∈ reserved_filename_chars then '_' else c)
  let trimmed := trimMatches [' ', '.'] out
  if trimmed.isEmpty then str "model" else trimmed

/-- `Path::extension().is_some()` for a plain file name: it has a `.` at a
position after the first character. -/
def file_has_extension (f : List Char) : Bool :=
  let afterDot := (f.reverse.takeWhile (fun c => c ≠ '.')).reverse
  if afterDot.length = f.length then false
  else decide (0 < f.length - afterDot.length - 1)

/-- ASCII case-insensitive equality (Rust `eq_ignore_ascii_case`). -/
def eqIgnoreAsciiCase (a b : List Char) : Bool := toLowerStr a == toLowerStr b

/-- `normalize_model_filename` from the source. -/
def normalize_model_filename (name : List Char) (platform : Option (List Char)) :
    List Char :=
  let basename := safe_filename name
  if file_has_extension basename then basename
  else if eqIgnoreAsciiCase (platform.getD []) (str "nam") then
    basename ++ str ".nam" 
  else basename

/-- A download record as pushed to `model_items` (the fields the claims
are about). -/
structure DLRecord where
  model_name : List Char
  status : List Char
  path : List Char
deriving DecidableEq

/-- The destination path of one selected model file. -/
def model_target_path (component_dir : List Char) (tone_platform : Option (List Char))
    (model : Json) : List Char :=
  component_dir ++ ['/'] ++
    normalize_model_filename (value_as_string (jget model (str "name"))) tone_platform

/-- One iteration of the selected-model loop of
`download_models_for_tone_component`: skip when the target path exists,
error when the model URL is missing, otherwise fetch and write.  The
filesystem is an association list path to contents; `download` is the
transfer oracle; the last component lists the URLs actually fetched.
(A failed transfer is modelled as writing nothing; the skip-if-exists
guard means an existing path is never passed to `File::create`.) -/
def download_one_model (download : List Char → Except (List Char) (List Char))
    (component_dir : List Char) (tone_platform : Option (List Char))
    (fs : List (List Char × List Char)) (count : Nat) (model : Json) :
    List (List Char × List Char) × Nat × DLRecord × List (List Char) :=
  if (fs.lookup (model_target_path component_dir tone_platform model)).isSome then
    (fs, count,
     { model_name := normalize_model_filename
         (value_as_string (jget model (str "name"))) tone_platform,
       status := str "skipped_exists",
       path := model_target_path component_dir tone_platform model }, [])
  else if (value_as_string (jget model (str "model_url"))).isEmpty then
    (fs, count,
     { model_name := normalize_model_filename
         (value_as_string (jget model (str "name"))) tone_platform,
       status := str "error",
       path := model_target_path component_dir tone_platform model }, [])
  else
    match download (value_as_string (jget model (str "model_url"))) with
    | .ok bytes =>
      ((model_target_path component_dir tone_platform model, bytes) :: fs, count + 1,
       { model_name := normalize_model_filename
           (value_as_string (jget model (str "name"))) tone_platform,
         status := str "downloaded",
         path := model_target_path component_dir tone_platform model },
       [value_as_string (jget model (str "model_url"))])
    | .error _ =>
      (fs, count,
       { model_name := normalize_model_filename
           (value_as_string (jget model (str "name"))) tone_platform,
         status := str "error",
         path := model_target_path component_dir tone_platform model },
       [value_as_string (jget model (str "model_url"))])

/-- The whole selected-model loop: threads the filesystem and the
newly-downloaded count, collecting records and fetched URLs. -/
def download_selected_models (download : List Char → Except (List Char) (List Char))
    (component_dir : List Char) (tone_platform : Option (List Char)) :
    List Json → List (List Char × List Char) → Nat →
    List (List Char × List Char) × Nat × List DLRecord × List (List Char)
  | [], fs, count => (fs, count, [], [])
  | m :: rest, fs, count =>
    ((download_selected_models download component_dir tone_platform rest
        (download_one_model download component_dir tone_platform fs count m).1
        (download_one_model download component_dir tone_platform fs count m).2.1).1,
     (download_selected_models download component_dir tone_platform rest
        (download_one_model download component_dir tone_platform fs count m).1
        (download_one_model download component_dir tone_platform fs count m).2.1).2.1,
     (download_one_model download component_dir tone_platform fs count m).2.2.1 ::
       (download_selected_models download component_dir tone_platform rest
          (download_one_model download component_dir tone_platform fs count m).1
          (download_one_model download component_dir tone_platform fs count m).2.1).2.2.1,
     (download_one_model download component_dir tone_platform fs count m).2.2.2 ++
       (download_selected_models download component_dir tone_platform rest
          (download_one_model download component_dir tone_platform fs count m).1
          (download_one_model download component_dir tone_platform fs count m).2.1).2.2.2)

/-! ## Concrete test data for the witnesses and counterexamples -/

/-- A catalog entry with the fields the pipeline reads (number fields are
given as lexemes). -/
def mkTone (idLex gear title descr dlLex : String) : Json :=
  Json.jobj
    [(str "id", Json.jnum (str idLex)),
     (str "gear", Json.jstr (str gear)),
     (str "title", Json.jstr (str title)),
     (str "description", Json.jstr (str descr)),
     (str "downloads_count", Json.jnum (str dlLex))]

/-- C2 data: the most popular candidate is an amp with a built-in
tube-screamer keyword. -/
def c2ampBoost : Json := mkTone "1" "amp" "Mesa with tubescreamer in front" "hot" "1000" 

/-- C2 data: a preamp/boost pedal, more popular than the clean amp. -/
def c2pedal : Json := mkTone "2" "pedal" "Klon boost pedal" "gold" "999" 

/-- C2 data: a plain amp ranked 16th by downloads, outside the top-15
restriction. -/
def c2plainAmp : Json := mkTone "16" "amp" "Plain clean amp" "neutral" "1" 

/-- C2 data: a 16-entry pool in which every eligible backfill candidate of
the top 15 is exhausted while the 16th remains eligible. -/
def c2pool : List Json := [c2ampBoost] ++ List.replicate 14 c2pedal ++ [c2plainAmp]

/-- C2 data: the completion response selecting only the boost amp. -/
def c2raw : Json := Json.jobj [(str "selected_indices", Json.jarr [Json.jnum (str "0")])]

/-- Modelled from the spec (claim C2): the backfill contract over the FULL
candidate pool.  If backfill really appended candidates from the full pool,
ordered by downloads, skipping only already-selected candidates and pedal
candidates disallowed by the boost rule, until the maximum is reached or
the pool is exhausted, then a final selection smaller than the maximum
would leave no pool candidate that is neither selected nor a preamp/boost
pedal.  (This is weaker than the claim — pedals are excused even without a
boost amp — so refuting it refutes the claim.) -/
def c2_backfill_exhausts_full_pool (tones : List Json) (max_selections : Nat)
    (gemini : Except (List Char) Json) : Prop :=
  (select_best_tones tones max_selections gemini).1.length < max_selections →
    ∀ t ∈ tones, t ∈ (select_best_tones tones max_selections gemini).1 ∨
      tone_is_preamp_or_boost_pedal t = true

/-- C1 data: a cabinet with identifier 7. -/
def c1cab : Json := mkTone "7" "ir" "412 greenback cab" "classic" "50" 

/-- C1 data: a run of two presets, both needing a cabinet, whose cabinet
searches both return only the cabinet with identifier 7, with the
completion service down. -/
def c1inputs : List PresetCabInput :=
  [{ needs_cab := true, cab_pool := [c1cab], gemini_cab := .error (str "down") },
   { needs_cab := true, cab_pool := [c1cab], gemini_cab := .error (str "down") }]

/-- C1 witness data: a second distinct cabinet. -/
def c1cabB : Json := mkTone "8" "ir" "212 alt cab" "modern" "40" 

/-- C1 witness data: a run whose second preset still has an unused
candidate in its pool. -/
def c1safeInputs : List PresetCabInput :=
  [{ needs_cab := true, cab_pool := [c1cab, c1cabB], gemini_cab := .error (str "down") },
   { needs_cab := true, cab_pool := [c1cab, c1cabB], gemini_cab := .error (str "down") }]

/-- C3/C4 data: a five-candidate pool in unsorted download order. -/
def c3pool : List Json :=
  [mkTone "1" "amp" "Alpha" "first" "10",
   mkTone "2" "amp" "Beta" "second" "50",
   mkTone "3" "pedal" "Gamma" "third" "30",
   mkTone "4" "amp" "Delta" "fourth" "40",
   mkTone "5" "ir" "Epsilon" "fifth" "20"]

/-- C4 data: a pool with a boost amp and a boost pedal. -/
def c4pool : List Json :=
  [mkTone "1" "amp" "JCM with TS808 tubescreamer" "stock" "100",
   mkTone "2" "pedal" "Mega boost" "loud" "90",
   mkTone "3" "amp" "Other amp" "plain" "80"]

/-- C4 data: the completion response selecting the boost amp and the boost
pedal. -/
def c4raw : Json :=
  Json.jobj
    [(str "selected_indices",
      Json.jarr [Json.jnum (str "0"), Json.jnum (str "1")])]

/-- C6 data: a catalog in which the two primary queries return overlapping
identifier sets 1,2,3 and 2,3,4. -/
def c6catalog : SearchCall → List Json := fun call =>
  if call.query = str "q1" then
    [mkTone "1" "amp" "t1" "" "5", mkTone "2" "amp" "t2" "" "4",
     mkTone "3" "amp" "t3" "" "3"]
  else if call.query = str "q2" then
    [mkTone "2" "amp" "t2" "" "4", mkTone "3" "amp" "t3" "" "3",
     mkTone "4" "amp" "t4" "" "2"]
  else []

/-- C7 data: a completion service whose first answer is prose and whose
retry answer is a JSON object. -/
def c7service : List Char → ServiceResp := fun p =>
  if p = str "pick a tone" then
    .success (Json.jobj [(str "text", Json.jstr (str "no json here"))])
  else
    .success (Json.jobj
      [(str "text", Json.jstr (str "\x7b\x22sel\x22:2\x7d"))])

/-- C9 data: a selected model file entry. -/
def c9model : Json :=
  Json.jobj
    [(str "name", Json.jstr (str "Lead Tone")),
     (str "model_url", Json.jstr (str "http-u1"))]

/-- C9 data: a download oracle. -/
def c9download : List Char → Except (List Char) (List Char) := fun _ => .ok (str "BYTES")

/-- C9 data: a filesystem already holding the model's target file. -/
def c9fs : List (List Char × List Char) := [(str "dir/Lead Tone.nam", str "OLD")]

/-! ## Helper lemmas: trimming and sanitizing -/

theorem dropWhile_idem (p : Char → Bool) (l : List Char) :
    (l.dropWhile p).dropWhile p = l.dropWhile p := by
  induction l with
  | nil => rfl
  | cons c rest ih =>
    by_cases h : p c
    · simp [List.dropWhile_cons, h, ih]
    · simp [List.dropWhile_cons, h]

theorem dropWhile_eq_self_of_prefix {p : Char → Bool} {l m : List Char}
    (hl : l.dropWhile p = l) (hm : m <+: l) : m.dropWhile p = m := by
  cases m with
  | nil => rfl
  | cons a t =>
    obtain ⟨k, hk⟩ := hm
    subst hk
    rw [List.cons_append, List.dropWhile_cons] at hl
    by_cases hp : p a
    · rw [if_pos hp] at hl
      have h1 : (List.dropWhile p (t ++ k)).length = (t ++ k).length + 1 := by
        rw [hl]; simp
      have h2 := (List.dropWhile_sublist (l := t ++ k) p).length_le
      omega
    · simp [List.dropWhile_cons, hp]

theorem rustTrimRight_initial (s : List Char) : rustTrimRight s <+: s := by
  have h := List.dropWhile_suffix (l := s.reverse) rustIsWhitespace
  have h2 := List.reverse_prefix.mpr h
  rwa [List.reverse_reverse] at h2

theorem rustTrim_idem (s : List Char) : rustTrim (rustTrim s) = rustTrim s := by
  show rustTrimRight (rustTrimLeft (rustTrimRight (rustTrimLeft s))) = _
  have h1 : rustTrimLeft (rustTrimRight (rustTrimLeft s)) = rustTrimRight (rustTrimLeft s) :=
    dropWhile_eq_self_of_prefix (dropWhile_idem _ _) (rustTrimRight_initial _)
  rw [h1]
  show ((rustTrimRight (rustTrimLeft s)).reverse.dropWhile _).reverse = _
  rw [show (rustTrimRight (rustTrimLeft s)).reverse =
      (rustTrimLeft s).reverse.dropWhile rustIsWhitespace from by
    simp [rustTrimRight]]
  rw [dropWhile_idem]
  rfl

theorem mem_rustTrim {s : List Char} {c : Char} (h : c ∈ rustTrim s) : c ∈ s := by
  have h1 : c ∈ rustTrimLeft s := (rustTrimRight_initial _).sublist.subset h
  exact (List.dropWhile_sublist _).subset h1

theorem sanitize_no_crlf (text : List Char) :
    ∀ c ∈ sanitize_line text, c ≠ '\r' ∧ c ≠ '\n' := by
  intro c hc
  have hc2 := mem_rustTrim hc
  obtain ⟨y, hy, rfl⟩ := List.mem_map.mp hc2
  obtain ⟨x, _, rfl⟩ := List.mem_map.mp hy
  by_cases h1 : x = '\r'
  · subst h1
    constructor <;> simp
  · rw [if_neg h1]
    by_cases h2 : x = '\n'
    · subst h2; constructor <;> simp
    · rw [if_neg h2]; exact ⟨h1, h2⟩

theorem sanitize_line_idem (text : List Char) :
    sanitize_line (sanitize_line text) = sanitize_line text := by
  have h := sanitize_no_crlf text
  have h1 : ((sanitize_line text).map (fun c => if c = '\r' then ' ' else c)).map
      (fun c => if c = '\n' then ' ' else c) = sanitize_line text := by
    rw [List.map_congr_left (f := fun c => if c = '\r' then ' ' else c) (g := id)
      (fun a ha => by simp [(h a ha).1]), List.map_id]
    rw [List.map_congr_left (f := fun c => if c = '\n' then ' ' else c) (g := id)
      (fun a ha => by simp [(h a ha).2]), List.map_id]
  show rustTrim (((sanitize_line text).map _).map _) = sanitize_line text
  rw [h1]
  show rustTrim (rustTrim ((text.map _).map _)) = _
  rw [rustTrim_idem]
  rfl

/-! ## Helper lemmas: the Selection Engine -/

theorem sorted_pool_indices_nodup (tones : List Json) :
    (sorted_pool_indices tones).Nodup :=
  ((List.perm_insertionSort _ _).nodup_iff).mpr (List.nodup_range _)

theorem backfill_indices_eq (tones : List Json) (amp : Bool) (max : Nat) :
    ∀ (idxs acc : List Nat), idxs.Nodup → acc.length < max →
      backfill_indices tones amp max idxs acc =
        acc ++ (idxs.filter (fun i => decide (i ∉ acc) &&
          !(amp && tone_is_preamp_or_boost_pedal (toneAt tones i)))).take
          (max - acc.length) := by
  intro idxs
  induction idxs with
  | nil => intro acc _ _; simp [backfill_indices]
  | cons idx rest ih =>
    intro acc hnd hlt
    rw [backfill_indices]
    by_cases hmem : idx ∈ acc
    · rw [if_pos hmem, ih acc hnd.of_cons hlt, List.filter_cons,
        if_neg (by simp [hmem])]
    · rw [if_neg hmem]
      by_cases hped : amp ∧ tone_is_preamp_or_boost_pedal (toneAt tones idx) = true
      · rw [if_pos hped, ih acc hnd.of_cons hlt, List.filter_cons,
          if_neg (by simp [hped.1, hped.2])]
      · rw [if_neg hped]
        have hkeep : (decide (idx ∉ acc) &&
            !(amp && tone_is_preamp_or_boost_pedal (toneAt tones idx))) = true := by
          rcases Bool.eq_false_or_eq_true amp with ha | ha
          · rcases Bool.eq_false_or_eq_true
              (tone_is_preamp_or_boost_pedal (toneAt tones idx)) with hb | hb
            · exact absurd ⟨by rw [ha], hb⟩ hped
            · simp [hmem, hb]
          · simp [hmem, ha]
        rw [List.filter_cons, if_pos hkeep]
        have hlen2 : (acc ++ [idx]).length = acc.length + 1 := by simp
        by_cases hfull : max ≤ (acc ++ [idx]).length
        · rw [if_pos hfull]
          have hmax : max = acc.length + 1 := by omega
          rw [hmax]
          simp
        · rw [if_neg hfull]
          rw [ih (acc ++ [idx]) hnd.of_cons (by omega)]
          have hfc : rest.filter (fun i => decide (i ∉ acc ++ [idx]) &&
                !(amp && tone_is_preamp_or_boost_pedal (toneAt tones i))) =
              rest.filter (fun i => decide (i ∉ acc) &&
                !(amp && tone_is_preamp_or_boost_pedal (toneAt tones i))) := by
            refine List.filter_congr (fun x hx => ?_)
            have hne : x ≠ idx := fun he => (List.nodup_cons.mp hnd).1 (he ▸ hx)
            simp [List.mem_append, hne]
          rw [hfc]
          have harith : max - acc.length = (max - (acc.length + 1)) + 1 := by omega
          rw [hlen2, harith, List.take_succ_cons, List.append_assoc]
          rfl

theorem backfill_indices_mem (tones : List Json) (amp : Bool) (max : Nat) :
    ∀ (idxs acc : List Nat), ∀ j ∈ backfill_indices tones amp max idxs acc,
      j ∈ acc ∨ j ∈ idxs := by
  intro idxs
  induction idxs with
  | nil => intro acc j hj; exact Or.inl (by simpa [backfill_indices] using hj)
  | cons idx rest ih =>
    intro acc j hj
    rw [backfill_indices] at hj
    by_cases hmem : idx ∈ acc
    · rw [if_pos hmem] at hj
      rcases ih acc j hj with h | h
      · exact Or.inl h
      · exact Or.inr (List.mem_cons_of_mem _ h)
    · rw [if_neg hmem] at hj
      by_cases hped : amp ∧ tone_is_preamp_or_boost_pedal (toneAt tones idx) = true
      · rw [if_pos hped] at hj
        rcases ih acc j hj with h | h
        · exact Or.inl h
        · exact Or.inr (List.mem_cons_of_mem _ h)
      · rw [if_neg hped] at hj
        by_cases hfull : max ≤ (acc ++ [idx]).length
        · rw [if_pos hfull] at hj
          rcases List.mem_append.mp hj with h | h
          · exact Or.inl h
          · exact Or.inr (by simp [List.mem_singleton.mp h])
        · rw [if_neg hfull] at hj
          rcases ih (acc ++ [idx]) j hj with h | h
          · rcases List.mem_append.mp h with h2 | h2
            · exact Or.inl h2
            · exact Or.inr (by simp [List.mem_singleton.mp h2])
          · exact Or.inr (List.mem_cons_of_mem _ h)

theorem backfill_indices_pedal_free (tones : List Json) (max : Nat) :
    ∀ (idxs acc : List Nat),
      (∀ j ∈ acc, tone_is_preamp_or_boost_pedal (toneAt tones j) = false) →
      ∀ j ∈ backfill_indices tones true max idxs acc,
        tone_is_preamp_or_boost_pedal (toneAt tones j) = false := by
  intro idxs
  induction idxs with
  | nil => intro acc hacc j hj; exact hacc j (by simpa [backfill_indices] using hj)
  | cons idx rest ih =>
    intro acc hacc j hj
    rw [backfill_indices] at hj
    by_cases hmem : idx ∈ acc
    · rw [if_pos hmem] at hj
      exact ih acc hacc j hj
    · rw [if_neg hmem] at hj
      cases hb : tone_is_preamp_or_boost_pedal (toneAt tones idx) with
      | true =>
        rw [if_pos (by exact ⟨rfl, hb⟩)] at hj
        exact ih acc hacc j hj
      | false =>
        rw [if_neg (by simp [hb])] at hj
        have hacc2 : ∀ j2 ∈ acc ++ [idx],
            tone_is_preamp_or_boost_pedal (toneAt tones j2) = false := by
          intro j2 hj2
          rcases List.mem_append.mp hj2 with h | h
          · exact hacc j2 h
          · rw [List.mem_singleton.mp h]; exact hb
        by_cases hfull : max ≤ (acc ++ [idx]).length
        · rw [if_pos hfull] at hj
          exact hacc2 j hj
        · rw [if_neg hfull] at hj
          exact ih (acc ++ [idx]) hacc2 j hj

theorem dedup_indices_lt (len : Nat) :
    ∀ (sel seen : List Nat), ∀ j ∈ dedup_indices len seen sel, j < len := by
  intro sel
  induction sel with
  | nil => intro seen j hj; simp [dedup_indices] at hj
  | cons idx rest ih =>
    intro seen j hj
    rw [dedup_indices] at hj
    by_cases h : idx < len ∧ idx ∉ seen
    · rw [if_pos h] at hj
      rcases List.mem_cons.mp hj with h2 | h2
      · exact h2 ▸ h.1
      · exact ih _ j h2
    · rw [if_neg h] at hj
      exact ih _ j hj

theorem boost_filtered_mem_lt (tones : List Json) (sel : List Nat) :
    ∀ j ∈ boost_filtered_selection tones sel, j < tones.length := by
  intro j hj
  unfold boost_filtered_selection at hj
  by_cases h : selection_amp_has_boost tones sel = true
  · rw [if_pos h] at hj
    exact dedup_indices_lt _ _ _ j (List.mem_of_mem_filter hj)
  · rw [if_neg h] at hj
    exact dedup_indices_lt _ _ _ j hj

theorem postprocess_mem_lt (tones : List Json) (sel : List Nat) (max : Nat) :
    ∀ j ∈ postprocess_selected_indices tones sel max, j < tones.length := by
  intro j hj
  unfold postprocess_selected_indices at hj
  by_cases h : max ≤ (boost_filtered_selection tones sel).length
  · rw [if_pos h] at hj
    exact boost_filtered_mem_lt tones sel j (List.mem_of_mem_take hj)
  · rw [if_neg h] at hj
    rcases backfill_indices_mem tones _ max _ _ j hj with h2 | h2
    · exact boost_filtered_mem_lt tones sel j h2
    · have h3 : j ∈ List.range tones.length := by
        have := (List.mem_insertionSort _).mp h2
        simpa [sorted_pool_indices] using this
      exact List.mem_range.mp h3

theorem top_candidates_sorted (tones : List Json) :
    List.Sorted (fun a b : Json => tone_downloads b ≤ tone_downloads a)
      (top_candidates tones) := by
  haveI h1 : IsTotal Json (fun a b => tone_downloads b ≤ tone_downloads a) :=
    ⟨fun a b => le_total _ _⟩
  haveI h2 : IsTrans Json (fun a b => tone_downloads b ≤ tone_downloads a) :=
    ⟨fun a b c hab hbc => le_trans hbc hab⟩
  exact List.Pairwise.sublist (List.take_sublist _ _) (List.sorted_insertionSort _ _)

theorem sorted_range_of_sorted {tones : List Json}
    (h : List.Sorted (fun a b : Json => tone_downloads b ≤ tone_downloads a) tones) :
    List.Sorted
      (fun i j : Nat => tone_downloads (toneAt tones j) ≤ tone_downloads (toneAt tones i))
      (List.range tones.length) := by
  rw [List.Sorted, List.pairwise_iff_get]
  intro i j hij
  rw [List.get_range, List.get_range]

  have hi : (i : Nat) < tones.length := by simpa using i.isLt
  have hj : (j : Nat) < tones.length := by simpa using j.isLt
  have hrel := List.pairwise_iff_get.mp h ⟨i, hi⟩ ⟨j, hj⟩ hij
  rw [toneAt, toneAt, List.getD_eq_getElem _ _ hi, List.getD_eq_getElem _ _ hj]
  simpa [List.get_eq_getElem] using hrel

theorem sorted_pool_indices_of_sorted {tones : List Json}
    (h : List.Sorted (fun a b : Json => tone_downloads b ≤ tone_downloads a) tones) :
    sorted_pool_indices tones = List.range tones.length :=
  List.Sorted.insertionSort_eq (sorted_range_of_sorted h)

theorem postprocess_empty_sel (tones : List Json) (max : Nat) :
    postprocess_selected_indices tones [] max = (sorted_pool_indices tones).take max := by
  have hf : boost_filtered_selection tones [] = [] := by
    unfold boost_filtered_selection
    simp [dedup_indices, selection_amp_has_boost]
  unfold postprocess_selected_indices
  rw [hf]
  rcases Nat.eq_zero_or_pos max with hz | hp
  · subst hz; simp
  · rw [if_neg (by simp; omega)]
    have hb : selection_amp_has_boost tones [] = false := by
      simp [selection_amp_has_boost, dedup_indices]
    rw [hb, backfill_indices_eq tones false max _ []
      (sorted_pool_indices_nodup tones) (by simpa using hp)]
    simp

theorem map_toneAt_range_take (c : List Json) (m : Nat) :
    ((List.range c.length).take m).map (toneAt c) = c.take m := by
  apply List.ext_getElem
  · simp
  · intro n h1 h2
    simp only [List.getElem_map, List.getElem_take, List.getElem_range]
    have hn : n < c.length := by
      have := h2
      simp [List.length_take] at this
      omega
    rw [toneAt, List.getD_eq_getElem _ _ hn]

theorem select_fallback_eq_postprocess (tones : List Json) (max : Nat) (e : List Char) :
    (select_best_tones tones max (.error e)).1 =
      (postprocess_selected_indices (top_candidates tones) [] max).map
        (toneAt (top_candidates tones)) := by
  rw [postprocess_empty_sel, sorted_pool_indices_of_sorted (top_candidates_sorted tones)]
  by_cases h : tones.isEmpty
  · rw [select_best_tones, if_pos h]
    rw [List.isEmpty_iff.mp h]
    simp [top_candidates]
  · rw [select_best_tones, if_neg h]

theorem toneAt_mem {c : List Json} {j : Nat} (h : j < c.length) : toneAt c j ∈ c := by
  rw [toneAt, List.getD_eq_getElem _ _ h]
  exact List.getElem_mem _

theorem postprocess_pedal_free (tones : List Json) (sel : List Nat) (max : Nat)
    (h : selection_amp_has_boost tones sel = true) :
    ∀ j ∈ postprocess_selected_indices tones sel max,
      tone_is_preamp_or_boost_pedal (toneAt tones j) = false := by
  intro j hj
  have hacc : ∀ j2 ∈ boost_filtered_selection tones sel,
      tone_is_preamp_or_boost_pedal (toneAt tones j2) = false := by
    intro j2 hj2
    unfold boost_filtered_selection at hj2
    rw [if_pos h] at hj2
    have h3 := List.mem_filter.mp hj2
    simpa using h3.2
  unfold postprocess_selected_indices at hj
  by_cases hc : max ≤ (boost_filtered_selection tones sel).length
  · rw [if_pos hc] at hj
    exact hacc j (List.mem_of_mem_take hj)
  · rw [if_neg hc] at hj
    rw [h] at hj
    exact backfill_indices_pedal_free tones max _ _ hacc j hj

theorem select_success_eq (tones : List Json) (max : Nat) (raw : Json)
    (he : ¬ tones.isEmpty = true) :
    (select_best_tones tones max (.ok raw)).1 =
      (postprocess_selected_indices (top_candidates tones)
        (parse_selected_indices raw) max).map (toneAt (top_candidates tones)) := by
  rw [select_best_tones, if_neg he]

/-- C3: when the completion client fails outright, the Selection Engine's
result equals the deterministic post-processing applied to an empty initial
selection (pure popularity ranking through the same redundancy-filtered
backfill); concretely it is the top-`max` prefix of the sorted candidates,
its length is `min max (min 15 pool.length)`, it is ordered by descending
download count, and it is non-empty whenever the pool is non-empty and the
maximum is at least 1. -/
theorem C3_failure_fallback_selection (tones : List Json) (max : Nat) (e : List Char) :
    (select_best_tones tones max (.error e)).1 =
      (postprocess_selected_indices (top_candidates tones) [] max).map
        (toneAt (top_candidates tones)) ∧
    (select_best_tones tones max (.error e)).1 = (top_candidates tones).take max ∧
    (select_best_tones tones max (.error e)).1.length = min max (min 15 tones.length) ∧
    List.Sorted (fun a b : Json => tone_downloads b ≤ tone_downloads a)
      ((select_best_tones tones max (.error e)).1) ∧
    (tones ≠ [] → 1 ≤ max → (select_best_tones tones max (.error e)).1 ≠ []) := by
  have h1 := select_fallback_eq_postprocess tones max e
  have h2 : (select_best_tones tones max (.error e)).1 = (top_candidates tones).take max := by
    rw [h1, postprocess_empty_sel,
      sorted_pool_indices_of_sorted (top_candidates_sorted tones), map_toneAt_range_take]
  have h3 : (select_best_tones tones max (.error e)).1.length =
      min max (min 15 tones.length) := by
    rw [h2]
    simp [top_candidates, List.length_take]
  refine ⟨h1, h2, h3, ?_, ?_⟩
  · rw [h2]
    exact List.Pairwise.sublist (List.take_sublist _ _) (top_candidates_sorted tones)
  · intro hne hm
    have hp : 0 < tones.length := List.length_pos.mpr hne
    have hl : 0 < (select_best_tones tones max (.error e)).1.length := by
      rw [h3]
      rcases Nat.lt_or_ge tones.length 15 with hc | hc <;> omega
    exact List.length_pos.mp hl

/-- C3 witness: a concrete five-candidate pool with `max_selections = 3`
and a failed completion: exactly three results, non-empty. -/
theorem C3_failure_fallback_selection_witness :
    (select_best_tones c3pool 3 (.error (str "boom"))).1.length =
      min 3 (min 15 c3pool.length) ∧
    (select_best_tones c3pool 3 (.error (str "boom"))).1 ≠ [] :=
  ⟨(C3_failure_fallback_selection c3pool 3 (str "boom")).2.2.1,
   (C3_failure_fallback_selection c3pool 3 (str "boom")).2.2.2.2
     (by simp [c3pool]) (by omega)⟩

/-- C4: if the deduplicated in-range selection returned by the completion
service contains an amp candidate whose title and description match a
boost keyword, then no preamp/boost pedal candidate survives into the
final selection — neither from the returned indices nor through backfill. -/
theorem C4_boost_redundancy_rule (tones : List Json) (max : Nat) (raw : Json)
    (h : ∃ i ∈ dedup_indices (top_candidates tones).length []
        (parse_selected_indices raw),
      tone_contains_boost (toneAt (top_candidates tones) i) = true) :
    ∀ t ∈ (select_best_tones tones max (.ok raw)).1,
      tone_is_preamp_or_boost_pedal t = false := by
  intro t ht
  by_cases he : tones.isEmpty = true
  · rw [select_best_tones, if_pos he] at ht
    simp at ht
  · rw [select_success_eq tones max raw he] at ht
    obtain ⟨j, hj, rfl⟩ := List.mem_map.mp ht
    have hamp : selection_amp_has_boost (top_candidates tones)
        (parse_selected_indices raw) = true := by
      rw [selection_amp_has_boost, List.any_eq_true]
      exact h
    exact postprocess_pedal_free _ _ _ hamp j hj

/-- C4 witness: a pool whose most popular amp mentions a tube screamer and
whose completion answer also picks a boost pedal — the final selection
contains no preamp/boost pedal. -/
theorem C4_boost_redundancy_rule_witness :
    (select_best_tones c4pool 2 (.ok c4raw)).1.all
      (fun t => ! tone_is_preamp_or_boost_pedal t) = true := by
  rw [List.all_eq_true]
  intro t ht
  rw [Bool.not_eq_true']
  exact C4_boost_redundancy_rule c4pool 2 c4raw ⟨0, by decide, by decide⟩ t ht

/-- C2 counterexample: with a 16-entry pool whose top 15 are exhausted by
the boost rule, the result stays below the maximum although the full pool
still holds an eligible candidate — the backfill draws from the top-15
restriction, not from the full pool as claimed. -/
theorem C2_full_pool_backfill_counterexample :
    ¬ c2_backfill_exhausts_full_pool c2pool 2 (.ok c2raw) := by
  intro hcontract
  have hsel : (select_best_tones c2pool 2 (.ok c2raw)).1 = [c2ampBoost] := by rfl
  have h2 := hcontract (by rw [hsel]; simp) c2plainAmp (by simp [c2pool])
  rcases h2 with hmem | hped
  · rw [hsel] at hmem
    have heq := List.mem_singleton.mp hmem
    have hid := congrArg tone_id heq
    rw [show tone_id c2plainAmp = some 16 by decide,
      show tone_id c2ampBoost = some 1 by decide] at hid
    exact absurd hid (by decide)
  · exact absurd hped (by decide)

/-- C2 as amended: when the deduplicated, boost-filtered selection is
smaller than the requested maximum, the backfill appends candidates from
the TOP-15 candidate list handed to post-processing (the same restriction
used for the completion prompt) — its indices ordered by descending
download count, skipping already selected indices and pedals disallowed by
the boost rule, until the maximum is reached or that list is exhausted;
consequently every selected tone comes from the top-15 restriction. -/
theorem C2_backfill_amended (tones : List Json) (sel : List Nat) (max : Nat)
    (raw : Json)
    (hlt : (boost_filtered_selection tones sel).length < max) :
    postprocess_selected_indices tones sel max =
      boost_filtered_selection tones sel ++
        ((sorted_pool_indices tones).filter (fun i =>
          decide (i ∉ boost_filtered_selection tones sel) &&
          !(selection_amp_has_boost tones sel &&
            tone_is_preamp_or_boost_pedal (toneAt tones i)))).take
          (max - (boost_filtered_selection tones sel).length) ∧
    ∀ t ∈ (select_best_tones tones max (.ok raw)).1, t ∈ top_candidates tones := by
  constructor
  · unfold postprocess_selected_indices
    rw [if_neg (by omega)]
    exact backfill_indices_eq tones _ max _ _ (sorted_pool_indices_nodup tones) hlt
  · intro t ht
    by_cases he : tones.isEmpty = true
    · rw [select_best_tones, if_pos he] at ht
      simp at ht
    · rw [select_success_eq tones max raw he] at ht
      obtain ⟨j, hj, rfl⟩ := List.mem_map.mp ht
      exact toneAt_mem (postprocess_mem_lt _ _ _ j hj)

/-- C2 amended witness: the counterexample pool itself, with the boost amp
selected and a maximum of 2. -/
theorem C2_backfill_amended_witness :
    (postprocess_selected_indices c2pool [0] 2 =
      boost_filtered_selection c2pool [0] ++
        ((sorted_pool_indices c2pool).filter (fun i =>
          decide (i ∉ boost_filtered_selection c2pool [0]) &&
          !(selection_amp_has_boost c2pool [0] &&
            tone_is_preamp_or_boost_pedal (toneAt c2pool i)))).take
          (2 - (boost_filtered_selection c2pool [0]).length)) ∧
    c2ampBoost ∈ top_candidates c2pool :=
  ⟨(C2_backfill_amended c2pool [0] 2 c2raw (by decide)).1,
   (C2_backfill_amended c2pool [0] 2 c2raw (by decide)).2 c2ampBoost
     (by rw [show (select_best_tones c2pool 2 (.ok c2raw)).1 = [c2ampBoost] from rfl]
         exact List.mem_singleton.mpr rfl)⟩

/-! ## Helper lemmas: the Rig Assembler cabinet loop -/

theorem select_best_cab_mem {g : Except (List Char) Json} {pool : List Json}
    {cab : Json} {reason : List Char}
    (h : select_best_cab_for_amp g pool = some (cab, reason)) : cab ∈ pool := by
  unfold select_best_cab_for_amp at h
  by_cases he : pool.isEmpty = true
  · rw [if_pos he] at h
    exact absurd h (by simp)
  · rw [if_neg he] at h
    have hlen : 0 < pool.length := by
      rcases pool with _ | ⟨a, t⟩
      · simp at he
      · simp
    cases g with
    | error err =>
      simp only [Option.some.injEq, Prod.mk.injEq] at h
      rw [← h.1]
      exact toneAt_mem hlen
    | ok value =>
      simp only [Option.some.injEq, Prod.mk.injEq] at h
      rw [← h.1]
      apply toneAt_mem
      cases hji : (jget value (str "selected_index")).bind json_index with
      | none => simp only [hji]; exact hlen
      | some i =>
        simp only [hji]
        by_cases hii : i < pool.length
        · rw [if_pos hii]; exact hii
        · rw [if_neg hii]; exact hlen

theorem select_best_cab_of_nonempty {g : Except (List Char) Json} {pool : List Json}
    (h : select_best_cab_for_amp g pool = none) : pool = [] := by
  unfold select_best_cab_for_amp at h
  by_cases he : pool.isEmpty = true
  · exact List.isEmpty_iff.mp he
  · rw [if_neg he] at h
    cases g with
    | error err => exact absurd h (by simp)
    | ok value => exact absurd h (by simp)

theorem choose_preset_cab_spec (used : List Int) (inp : PresetCabInput) :
    (∀ x ∈ used, x ∈ (choose_preset_cab used inp).2) ∧
    (∀ id, (choose_preset_cab used inp).1.bind tone_id = some id →
      id ∈ (choose_preset_cab used inp).2) ∧
    ((inp.needs_cab = true → inp.cab_pool ≠ [] →
        inp.cab_pool.filter (cab_id_free used) ≠ []) →
      ∀ id, (choose_preset_cab used inp).1.bind tone_id = some id → id ∉ used) := by
  unfold choose_preset_cab
  by_cases hn : ¬ inp.needs_cab = true
  · rw [if_pos hn]
    exact ⟨fun x hx => hx, by simp, by simp⟩
  · rw [if_neg hn]
    have hneeds : inp.needs_cab = true := not_not.mp hn
    cases hs : select_best_cab_for_amp inp.gemini_cab
        (if (inp.cab_pool.filter (cab_id_free used)).isEmpty then inp.cab_pool
         else inp.cab_pool.filter (cab_id_free used)) with
    | none => exact ⟨fun x hx => hx, by simp, by simp⟩
    | some p =>
      obtain ⟨cab, reason⟩ := p
      refine ⟨?_, ?_, ?_⟩
      · intro x hx
        cases hid : tone_id cab with
        | none =>
          simp only [hid]
          exact hx
        | some id =>
          simp only [hid]
          exact List.mem_append_left _ hx
      · intro id hid
        simp only [Option.some_bind] at hid
        simp only [hid]
        exact List.mem_append_right _ (List.mem_singleton.mpr rfl)
      · intro hfil id hid
        simp only [Option.some_bind] at hid
        have hpoolne : inp.cab_pool ≠ [] := by
          intro hnil
          rw [hnil] at hs
          simp [select_best_cab_for_amp] at hs
        have hfne := hfil hneeds hpoolne
        have hie : (inp.cab_pool.filter (cab_id_free used)).isEmpty = false := by
          rcases Bool.eq_false_or_eq_true
            ((inp.cab_pool.filter (cab_id_free used)).isEmpty) with h | h
          · exact absurd (List.isEmpty_iff.mp h) hfne
          · exact h
        rw [if_neg (by simp [hie])] at hs
        have hmem := select_best_cab_mem hs
        have hfree := (List.mem_filter.mp hmem).2
        unfold cab_id_free at hfree
        rw [hid] at hfree
        simpa using hfree

/-- C1 counterexample: a run of two presets whose cabinet searches both
return only cabinet 7 selects cabinet 7 for BOTH presets — when every
candidate of a later preset's pool is already used, the source falls back
to the unfiltered pool and reuses a recorded identifier. -/
theorem C1_cab_reuse_counterexample :
    cab_slot_ids (assemble_cab_slots [] c1inputs) = [7, 7] ∧
    ¬ (cab_slot_ids (assemble_cab_slots [] c1inputs)).Nodup := by
  constructor
  · rfl
  · decide

/-- C1 as amended: cabinet identifiers are globally unique across the run
PROVIDED each preset that needs a cabinet and has a non-empty pool still
has at least one unused candidate when it is processed (otherwise the code
reuses the unfiltered pool); under that side condition the recorded `cab`
identifiers are pairwise distinct and disjoint from the initial used set. -/
theorem C1_cab_uniqueness_amended (inputs : List PresetCabInput) :
    ∀ used : List Int, cab_run_safe used inputs = true →
      (cab_slot_ids (assemble_cab_slots used inputs)).Nodup ∧
      ∀ id ∈ cab_slot_ids (assemble_cab_slots used inputs), id ∉ used := by
  induction inputs with
  | nil =>
    intro used _
    exact ⟨by simp [assemble_cab_slots, cab_slot_ids], by simp [assemble_cab_slots, cab_slot_ids]⟩
  | cons inp rest ih =>
    intro used hsafe
    rw [cab_run_safe, Bool.and_eq_true] at hsafe
    obtain ⟨hcond, htail⟩ := hsafe
    have hspec := choose_preset_cab_spec used inp
    have hih := ih (choose_preset_cab used inp).2 htail
    have hcondP : inp.needs_cab = true → inp.cab_pool ≠ [] →
        inp.cab_pool.filter (cab_id_free used) ≠ [] := by
      intro h1 h2
      rw [Bool.or_eq_true, Bool.or_eq_true] at hcond
      rcases hcond with (h3 | h3) | h3
      · rw [Bool.not_eq_true'] at h3
        exact absurd h1 (by simp [h3])
      · exact absurd (List.isEmpty_iff.mp h3) h2
      · rw [Bool.not_eq_true'] at h3
        intro hnil
        rw [hnil] at h3
        simp at h3
    rw [assemble_cab_slots]
    cases hslot : (choose_preset_cab used inp).1.bind tone_id with
    | none =>
      have hrw : cab_slot_ids ((choose_preset_cab used inp).1 ::
          assemble_cab_slots (choose_preset_cab used inp).2 rest) =
          cab_slot_ids (assemble_cab_slots (choose_preset_cab used inp).2 rest) := by
        simp [cab_slot_ids, List.filterMap_cons, hslot]
      rw [hrw]
      refine ⟨hih.1, fun id hmem hused => ?_⟩
      exact hih.2 id hmem (hspec.1 id hused)
    | some id0 =>
      have hrw : cab_slot_ids ((choose_preset_cab used inp).1 ::
          assemble_cab_slots (choose_preset_cab used inp).2 rest) =
          id0 :: cab_slot_ids (assemble_cab_slots (choose_preset_cab used inp).2 rest) := by
        simp [cab_slot_ids, List.filterMap_cons, hslot]
      rw [hrw]
      constructor
      · rw [List.nodup_cons]
        exact ⟨fun hmem => hih.2 id0 hmem (hspec.2.1 id0 hslot), hih.1⟩
      · intro id hid
        rcases List.mem_cons.mp hid with h | h
        · rw [h]
          exact hspec.2.2 hcondP id0 hslot
        · intro hmem
          exact hih.2 id h (hspec.1 id hmem)

/-- C1 amended witness: with a second unused candidate available, the two
presets record distinct cabinet identifiers. -/
theorem C1_cab_uniqueness_amended_witness :
    cab_run_safe ([] : List Int) c1safeInputs = true ∧
    (cab_slot_ids (assemble_cab_slots [] c1safeInputs)).Nodup :=
  ⟨by decide, (C1_cab_uniqueness_amended c1safeInputs [] (by decide)).1⟩

/-! ## Helper lemmas: the Structured-Response Extractor -/

theorem parse_segment_isObj {text : List Char} {v : Json}
    (h : parse_json_object_segment text = some v) : v.isObj = true := by
  unfold parse_json_object_segment at h
  cases hp : parseValue (text.length + 1) text with
  | none => rw [hp] at h; exact absurd h (by simp)
  | some p =>
    obtain ⟨w, rest⟩ := p
    rw [hp] at h
    dsimp only at h
    by_cases ho : w.isObj = true
    · rw [if_pos ho] at h
      rw [show v = w from by simpa using h.symm]
      exact ho
    · rw [if_neg ho] at h
      exact absurd h (by simp)

theorem scan_braces_isObj : ∀ {text : List Char} {v : Json},
    scan_braces text = some v → v.isObj = true := by
  intro text
  induction text with
  | nil => intro v h; simp [scan_braces] at h
  | cons c rest ih =>
    intro v h
    rw [scan_braces] at h
    by_cases hc : c = '{'
    · rw [if_pos hc] at h
      cases hp : parse_json_object_segment (c :: rest) with
      | some w =>
        rw [hp] at h
        rw [show v = w from by simpa using h.symm]
        exact parse_segment_isObj hp
      | none => rw [hp] at h; exact ih h
    · rw [if_neg hc] at h
      exact ih h

theorem extractor_cases (text : List Char) :
    (∃ v, parse_json_object_from_text text = .ok v ∧ v.isObj = true) ∨
    parse_json_object_from_text text = .error (str "Empty Gemini response") ∨
    parse_json_object_from_text text =
      .error (str "Invalid JSON from Gemini: " ++
        (strip_code_fence (rustTrim text)).take 200) := by
  unfold parse_json_object_from_text
  by_cases he : (rustTrim text).isEmpty = true
  · rw [if_pos he]
    exact Or.inr (Or.inl rfl)
  · rw [if_neg he]
    cases h1 : parse_json_object_segment (rustTrim text) with
    | some v => exact Or.inl ⟨v, rfl, parse_segment_isObj h1⟩
    | none =>
      cases h2 : parse_json_object_segment (strip_code_fence (rustTrim text)) with
      | some v => exact Or.inl ⟨v, rfl, parse_segment_isObj h2⟩
      | none =>
        cases h3 : parse_json_object_segment
            (sanitize_line (strip_code_fence (rustTrim text))) with
        | some v => exact Or.inl ⟨v, rfl, parse_segment_isObj h3⟩
        | none =>
          cases h4 : scan_braces (strip_code_fence (rustTrim text)) with
          | some v => exact Or.inl ⟨v, rfl, scan_braces_isObj h4⟩
          | none => exact Or.inr (Or.inr rfl)

/-- C5: the Structured-Response Extractor succeeds on the prose-wrapped and
fenced concrete inputs with exactly the object they contain, fails with a
diagnostic on the empty input and on object-free text, only ever returns
JSON objects, and every failure carries either the fixed empty-response
message or an excerpt of at most 200 characters. -/
theorem C5_structured_response_extractor :
    parse_json_object_from_text (str "noise \x7b\x22a\x22:1\x7d trailing") =
      .ok (Json.jobj [(str "a", Json.jnum (str "1"))]) ∧
    parse_json_object_from_text (str "```json\n\x7b\x22a\x22:1\x7d\n```") =
      .ok (Json.jobj [(str "a", Json.jnum (str "1"))]) ∧
    parse_json_object_from_text (str "") = .error (str "Empty Gemini response") ∧
    parse_json_object_from_text (str "not json at all") =
      .error (str "Invalid JSON from Gemini: not json at all") ∧
    (∀ text v, parse_json_object_from_text text = .ok v → v.isObj = true) ∧
    (∀ text e, parse_json_object_from_text text = .error e →
      e = str "Empty Gemini response" ∨
      ∃ excerpt, excerpt.length ≤ 200 ∧
        e = str "Invalid JSON from Gemini: " ++ excerpt) := by
  refine ⟨rfl, rfl, rfl, rfl, ?_, ?_⟩
  · intro text v h
    rcases extractor_cases text with ⟨w, hw, hobj⟩ | hrest
    · rw [h] at hw
      rw [show v = w from by simpa using hw]
      exact hobj
    · rcases hrest with h2 | h2 <;> rw [h] at h2 <;> exact absurd h2 (by simp)
  · intro text e h
    rcases extractor_cases text with ⟨w, hw, _⟩ | h2 | h2
    · rw [h] at hw
      exact absurd hw (by simp)
    · rw [h] at h2
      exact Or.inl (by simpa using h2)
    · rw [h] at h2
      refine Or.inr ⟨(strip_code_fence (rustTrim text)).take 200,
        List.length_take_le _ _, ?_⟩
      simpa using h2

/-! ## Helper lemmas: the Candidate Pool Builder -/

theorem pool_consider_tone_spec (st : PoolState) (tone : Json)
    (h1 : (st.tones.filterMap tone_id).Nodup)
    (h2 : ∀ id ∈ st.tones.filterMap tone_id, id ∈ st.seen) :
    ((pool_consider_tone st tone).tones.filterMap tone_id).Nodup ∧
    (∀ id ∈ (pool_consider_tone st tone).tones.filterMap tone_id,
      id ∈ (pool_consider_tone st tone).seen) ∧
    (pool_consider_tone st tone).calls = st.calls ∧
    (pool_consider_tone st tone).tones.length ≤ st.tones.length + 1 := by
  unfold pool_consider_tone
  cases hid : tone_id tone with
  | none =>
    dsimp only
    exact ⟨h1, h2, rfl, by omega⟩
  | some id =>
    dsimp only
    by_cases hseen : id ∈ st.seen
    · rw [if_pos hseen]
      exact ⟨h1, h2, rfl, by omega⟩
    · rw [if_neg hseen]
      have hni : id ∉ st.tones.filterMap tone_id := fun hmem => hseen (h2 id hmem)
      refine ⟨?_, ?_, rfl, by simp⟩
      · simp only [List.filterMap_append, List.filterMap_cons, hid, List.filterMap_nil]
        exact List.Nodup.append h1 (List.nodup_singleton id)
          (fun a ha hb => hni (by rwa [List.mem_singleton.mp hb] at ha))
      · intro id2 hmem
        simp only [List.filterMap_append, List.filterMap_cons, hid,
          List.filterMap_nil] at hmem
        rcases List.mem_append.mp hmem with h | h
        · exact List.mem_append_left _ (h2 id2 h)
        · exact List.mem_append_right _ h

theorem pool_fold_spec (l : List Json) :
    ∀ st : PoolState,
      (st.tones.filterMap tone_id).Nodup →
      (∀ id ∈ st.tones.filterMap tone_id, id ∈ st.seen) →
      ((l.foldl pool_consider_tone st).tones.filterMap tone_id).Nodup ∧
      (∀ id ∈ (l.foldl pool_consider_tone st).tones.filterMap tone_id,
        id ∈ (l.foldl pool_consider_tone st).seen) ∧
      (l.foldl pool_consider_tone st).calls = st.calls ∧
      (l.foldl pool_consider_tone st).tones.length ≤ st.tones.length + l.length := by
  induction l with
  | nil => intro st h1 h2; exact ⟨h1, h2, rfl, by simp⟩
  | cons tone rest ih =>
    intro st h1 h2
    rw [List.foldl_cons]
    obtain ⟨s1, s2, s3, s4⟩ := pool_consider_tone_spec st tone h1 h2
    obtain ⟨a, b, c, d⟩ := ih (pool_consider_tone st tone) s1 s2
    refine ⟨a, b, by rw [c, s3], ?_⟩
    simp only [List.length_cons]
    omega

theorem pool_search_step_spec (catalog : SearchCall → List Json)
    (gear : Option (List Char)) (max_results : Nat) (q : List Char) (st : PoolState)
    (h1 : (st.tones.filterMap tone_id).Nodup)
    (h2 : ∀ id ∈ st.tones.filterMap tone_id, id ∈ st.seen) :
    ((pool_search_step catalog gear max_results q st).tones.filterMap tone_id).Nodup ∧
    (∀ id ∈ (pool_search_step catalog gear max_results q st).tones.filterMap tone_id,
      id ∈ (pool_search_step catalog gear max_results q st).seen) ∧
    (pool_search_step catalog gear max_results q st).calls =
      st.calls ++ [search_tones_call q gear 25] ∧
    (pool_search_step catalog gear max_results q st).tones.length ≤
      st.tones.length + max_results := by
  unfold pool_search_step pool_add_results
  obtain ⟨a, b, c, d⟩ := pool_fold_spec
    ((catalog (search_tones_call q gear 25)).take max_results)
    { st with calls := st.calls ++ [search_tones_call q gear 25] } h1 h2
  refine ⟨a, b, c, ?_⟩
  have hlen := List.length_take_le max_results (catalog (search_tones_call q gear 25))
  simp only at d
  omega

theorem pool_consider_tone_len (st : PoolState) (tone : Json) :
    (pool_consider_tone st tone).tones.length ≤ st.tones.length + 1 := by
  unfold pool_consider_tone
  cases tone_id tone with
  | none => dsimp only; omega
  | some id =>
    dsimp only
    by_cases hseen : id ∈ st.seen
    · rw [if_pos hseen]; omega
    · rw [if_neg hseen]; simp

theorem pool_fold_len (l : List Json) :
    ∀ st : PoolState,
      (l.foldl pool_consider_tone st).tones.length ≤ st.tones.length + l.length := by
  induction l with
  | nil => intro st; simp
  | cons tone rest ih =>
    intro st
    rw [List.foldl_cons]
    have h1 := pool_consider_tone_len st tone
    have h2 := ih (pool_consider_tone st tone)
    simp only [List.length_cons]
    omega

theorem pool_search_step_len (catalog : SearchCall → List Json)
    (gear : Option (List Char)) (max_results : Nat) (q : List Char) (st : PoolState) :
    (pool_search_step catalog gear max_results q st).tones.length ≤
      st.tones.length + max_results := by
  unfold pool_search_step pool_add_results
  have h1 := pool_fold_len
    ((catalog (search_tones_call q gear 25)).take max_results)
    { st with calls := st.calls ++ [search_tones_call q gear 25] }
  have h2 := List.length_take_le max_results (catalog (search_tones_call q gear 25))
  simp only at h1
  omega

theorem pool_primary_phase_cons (catalog : SearchCall → List Json)
    (gear : Option (List Char)) (max_results : Nat) (q : List Char)
    (rest : List (List Char)) (st : PoolState) :
    pool_primary_phase catalog gear max_results (q :: rest) st =
      pool_primary_phase catalog gear max_results rest
        (pool_search_step catalog gear max_results q st) := by
  unfold pool_primary_phase
  rw [List.foldl_cons]

theorem pool_primary_phase_spec (catalog : SearchCall → List Json)
    (gear : Option (List Char)) (max_results : Nat) :
    ∀ (queries : List (List Char)) (st : PoolState),
      (st.tones.filterMap tone_id).Nodup →
      (∀ id ∈ st.tones.filterMap tone_id, id ∈ st.seen) →
      ((pool_primary_phase catalog gear max_results queries st).tones.filterMap
        tone_id).Nodup ∧
      (∀ id ∈ (pool_primary_phase catalog gear max_results queries
          st).tones.filterMap tone_id,
        id ∈ (pool_primary_phase catalog gear max_results queries st).seen) ∧
      (pool_primary_phase catalog gear max_results queries st).calls =
        st.calls ++ queries.map (fun q => search_tones_call q gear 25) := by
  intro queries
  induction queries with
  | nil => intro st h1 h2; exact ⟨h1, h2, by simp [pool_primary_phase]⟩
  | cons q rest ih =>
    intro st h1 h2
    rw [pool_primary_phase_cons]
    obtain ⟨a, b, c, _⟩ := pool_search_step_spec catalog gear max_results q st h1 h2
    obtain ⟨a2, b2, c2⟩ := ih (pool_search_step catalog gear max_results q st) a b
    refine ⟨a2, b2, ?_⟩
    rw [c2, c]
    simp

theorem pool_fallback_phase_stop (catalog : SearchCall → List Json)
    (gear : Option (List Char)) (max_results : Nat) (st : PoolState)
    (h : max_results ≤ st.tones.length) :
    ∀ fb, pool_fallback_phase catalog gear max_results fb st = st := by
  intro fb
  cases fb with
  | nil => rfl
  | cons q rest =>
    rw [pool_fallback_phase, if_pos h]

theorem pool_fallback_phase_append (catalog : SearchCall → List Json)
    (gear : Option (List Char)) (max_results : Nat) :
    ∀ (fb1 fb2 : List (List Char)) (st : PoolState),
      pool_fallback_phase catalog gear max_results (fb1 ++ fb2) st =
        pool_fallback_phase catalog gear max_results fb2
          (pool_fallback_phase catalog gear max_results fb1 st) := by
  intro fb1
  induction fb1 with
  | nil => intro fb2 st; rfl
  | cons q rest ih =>
    intro fb2 st
    by_cases h : max_results ≤ st.tones.length
    · rw [List.cons_append, pool_fallback_phase, if_pos h, pool_fallback_phase,
        if_pos h, pool_fallback_phase_stop catalog gear max_results st h fb2]
    · rw [List.cons_append, pool_fallback_phase, if_neg h, pool_fallback_phase,
        if_neg h, ih]

theorem pool_fallback_phase_spec (catalog : SearchCall → List Json)
    (gear : Option (List Char)) (max_results : Nat) :
    ∀ (fb : List (List Char)) (st : PoolState),
      (st.tones.filterMap tone_id).Nodup →
      (∀ id ∈ st.tones.filterMap tone_id, id ∈ st.seen) →
      ((pool_fallback_phase catalog gear max_results fb st).tones.filterMap
        tone_id).Nodup ∧
      (∀ id ∈ (pool_fallback_phase catalog gear max_results fb
          st).tones.filterMap tone_id,
        id ∈ (pool_fallback_phase catalog gear max_results fb st).seen) ∧
      (∀ c ∈ (pool_fallback_phase catalog gear max_results fb st).calls,
        c ∈ st.calls ∨ ∃ q, q ∈ fb ∧ c = search_tones_call q gear 25) := by
  intro fb
  induction fb with
  | nil => intro st h1 h2; exact ⟨h1, h2, fun c hc => Or.inl hc⟩
  | cons q rest ih =>
    intro st h1 h2
    by_cases h : max_results ≤ st.tones.length
    · rw [pool_fallback_phase, if_pos h]
      exact ⟨h1, h2, fun c hc => Or.inl hc⟩
    · rw [pool_fallback_phase, if_neg h]
      obtain ⟨a, b, c, _⟩ := pool_search_step_spec catalog gear max_results q st h1 h2
      obtain ⟨a2, b2, c2⟩ := ih (pool_search_step catalog gear max_results q st) a b
      refine ⟨a2, b2, fun call hc => ?_⟩
      rcases c2 call hc with hin | ⟨q2, hq2, he⟩
      · rw [c] at hin
        rcases List.mem_append.mp hin with h3 | h3
        · exact Or.inl h3
        · exact Or.inr ⟨q, List.mem_cons_self _ _, List.mem_singleton.mp h3⟩
      · exact Or.inr ⟨q2, List.mem_cons_of_mem _ hq2, he⟩

/-- C6: the Candidate Pool Builder deduplicates by catalog identifier
across all queries (concretely, overlapping results 1,2,3 and 2,3,4 yield
the pool 1,2,3,4 once each, and in general pool identifiers are pairwise
distinct); every issued search uses page size 25 (≤ the cap), the
all-time-downloads sort, and the gear filter; no fallback query is issued
when the primary phase already gathered 10 entries; the fallback phase
stops as soon as the pool has reached the cap; and one search adds at most
the per-query cap of results. -/
theorem C6_candidate_pool_builder :
    (build_gear_pool c6catalog [str "q1", str "q2"] [] (str "amp")
        15).tones.filterMap tone_id = [1, 2, 3, 4] ∧
    (∀ (catalog : SearchCall → List Json) primary fallback gear max_results,
      ((build_gear_pool catalog primary fallback gear
        max_results).tones.filterMap tone_id).Nodup) ∧
    (∀ (catalog : SearchCall → List Json) primary fallback gear max_results,
      ∀ c ∈ (build_gear_pool catalog primary fallback gear max_results).calls,
        c.page_size = 25 ∧ c.sort = str "downloads-all-time" ∧
        (gear ≠ [] → c.gear = some gear)) ∧
    (∀ (catalog : SearchCall → List Json) primary fallback gear max_results,
      ¬ (pool_primary_phase catalog (some gear) max_results primary
          { tones := [], seen := [], calls := [] }).tones.length < 10 →
      build_gear_pool catalog primary fallback gear max_results =
        pool_primary_phase catalog (some gear) max_results primary
          { tones := [], seen := [], calls := [] }) ∧
    (∀ (catalog : SearchCall → List Json) primary fb1 fb2 gear max_results,
      max_results ≤
        (build_gear_pool catalog primary fb1 gear max_results).tones.length →
      build_gear_pool catalog primary (fb1 ++ fb2) gear max_results =
        build_gear_pool catalog primary fb1 gear max_results) ∧
    (∀ (catalog : SearchCall → List Json) gear max_results q st,
      (pool_search_step catalog gear max_results q st).tones.length ≤
        st.tones.length + max_results) := by
  refine ⟨by decide, ?_, ?_, ?_, ?_, pool_search_step_len⟩
  · intro catalog primary fallback gear max_results
    obtain ⟨a, b, _⟩ := pool_primary_phase_spec catalog (some gear) max_results primary
      { tones := [], seen := [], calls := [] } (by simp) (by simp)
    unfold build_gear_pool
    by_cases h : (pool_primary_phase catalog (some gear) max_results primary
        { tones := [], seen := [], calls := [] }).tones.length < 10
    · rw [if_pos h]
      exact (pool_fallback_phase_spec catalog (some gear) max_results fallback _ a b).1
    · rw [if_neg h]
      exact a
  · intro catalog primary fallback gear max_results c hc
    obtain ⟨a, b, hcalls⟩ := pool_primary_phase_spec catalog (some gear) max_results
      primary { tones := [], seen := [], calls := [] } (by simp) (by simp)
    have hq : ∃ q, c = search_tones_call q (some gear) 25 := by
      unfold build_gear_pool at hc
      by_cases h : (pool_primary_phase catalog (some gear) max_results primary
          { tones := [], seen := [], calls := [] }).tones.length < 10
      · rw [if_pos h] at hc
        rcases (pool_fallback_phase_spec catalog (some gear) max_results fallback _
            a b).2.2 c hc with hin | ⟨q, _, he⟩
        · rw [hcalls] at hin
          simp only [List.nil_append] at hin
          obtain ⟨q, _, he⟩ := List.mem_map.mp hin
          exact ⟨q, he.symm⟩
        · exact ⟨q, he⟩
      · rw [if_neg h] at hc
        rw [hcalls] at hc
        simp only [List.nil_append] at hc
        obtain ⟨q, _, he⟩ := List.mem_map.mp hc
        exact ⟨q, he.symm⟩
    obtain ⟨q, rfl⟩ := hq
    refine ⟨rfl, rfl, fun hg => ?_⟩
    unfold search_tones_call
    simp only
    rw [if_neg (by simpa [List.isEmpty_iff] using hg)]
  · intro catalog primary fallback gear max_results h
    unfold build_gear_pool
    rw [if_neg h]
  · intro catalog primary fb1 fb2 gear max_results h
    unfold build_gear_pool at h ⊢
    by_cases h10 : (pool_primary_phase catalog (some gear) max_results primary
        { tones := [], seen := [], calls := [] }).tones.length < 10
    · rw [if_pos h10] at h ⊢
      rw [if_pos h10]
      rw [pool_fallback_phase_append]
      exact pool_fallback_phase_stop catalog (some gear) max_results _ h fb2
    · rw [if_neg h10] at h ⊢
      rw [if_neg h10]

/-- C6 witness: the first search call of the concrete overlapping-results
run carries the capped page size, the all-time-downloads sort, and the
gear filter. -/
theorem C6_candidate_pool_builder_witness :
    (search_tones_call (str "q1") (some (str "amp")) 25).page_size = 25 ∧
    (search_tones_call (str "q1") (some (str "amp")) 25).sort =
      str "downloads-all-time" ∧
    (search_tones_call (str "q1") (some (str "amp")) 25).gear =
      some (str "amp") := by
  obtain ⟨a, b, c⟩ := C6_candidate_pool_builder.2.2.1 c6catalog
    [str "q1", str "q2"] [] (str "amp") 15
    (search_tones_call (str "q1") (some (str "amp")) 25) (by decide)
  exact ⟨a, b, c (by decide)⟩

/-! ## Helper lemmas: the Completion Client -/

theorem gemini_fatal_eq (service : List Char → ServiceResp) (prompt e : List Char)
    (h : service prompt = .fatal e) :
    gemini_generate_json service prompt = (.error e, [prompt]) := by
  unfold gemini_generate_json
  rw [h]

theorem gemini_first_ok_eq (service : List Char → ServiceResp) (prompt : List Char)
    (resp : Json) (v : Json) (hs : service prompt = .success resp)
    (hp : parse_json_object_from_text (gemini_response_text resp) = .ok v) :
    gemini_generate_json service prompt = (.ok v, [prompt]) := by
  unfold gemini_generate_json
  rw [hs]
  dsimp only
  rw [hp]

theorem gemini_retry_fatal_eq (service : List Char → ServiceResp)
    (prompt e1 e : List Char) (resp : Json)
    (hs : service prompt = .success resp)
    (hp : parse_json_object_from_text (gemini_response_text resp) = .error e1)
    (hs2 : service (prompt ++ gemini_retry_suffix) = .fatal e) :
    gemini_generate_json service prompt =
      (.error e, [prompt, prompt ++ gemini_retry_suffix]) := by
  unfold gemini_generate_json
  rw [hs]
  dsimp only
  rw [hp]
  dsimp only
  rw [hs2]

theorem gemini_retry_ok_eq (service : List Char → ServiceResp)
    (prompt e1 : List Char) (resp resp2 v : Json)
    (hs : service prompt = .success resp)
    (hp : parse_json_object_from_text (gemini_response_text resp) = .error e1)
    (hs2 : service (prompt ++ gemini_retry_suffix) = .success resp2)
    (hp2 : parse_json_object_from_text (gemini_response_text resp2) = .ok v) :
    gemini_generate_json service prompt =
      (.ok v, [prompt, prompt ++ gemini_retry_suffix]) := by
  unfold gemini_generate_json
  rw [hs]
  dsimp only
  rw [hp]
  dsimp only
  rw [hs2]
  dsimp only
  rw [hp2]

theorem gemini_retry_fail_eq (service : List Char → ServiceResp)
    (prompt e1 e2 : List Char) (resp resp2 : Json)
    (hs : service prompt = .success resp)
    (hp : parse_json_object_from_text (gemini_response_text resp) = .error e1)
    (hs2 : service (prompt ++ gemini_retry_suffix) = .success resp2)
    (hp2 : parse_json_object_from_text (gemini_response_text resp2) = .error e2) :
    gemini_generate_json service prompt =
      (.error (gemini_fail_lead ++ e2), [prompt, prompt ++ gemini_retry_suffix]) := by
  unfold gemini_generate_json
  rw [hs]
  dsimp only
  rw [hp]
  dsimp only
  rw [hs2]
  dsimp only
  rw [hp2]

/-- C7: the Completion Client sends the original prompt first and at most
one retry (with the corrective instruction appended), retries exactly when
extraction of a JSON object from the first response fails, treats a
transport/HTTP failure as immediately fatal with no retry, and when both
attempts fail to parse returns a failure carrying the last extraction
failure message. -/
theorem C7_completion_client_retry (service : List Char → ServiceResp)
    (prompt : List Char) :
    (gemini_generate_json service prompt).2.length ≤ 2 ∧
    (gemini_generate_json service prompt).2.head? = some prompt ∧
    (∀ e, service prompt = .fatal e →
      gemini_generate_json service prompt = (.error e, [prompt])) ∧
    (∀ resp, service prompt = .success resp →
      (∀ v, parse_json_object_from_text (gemini_response_text resp) = .ok v →
        gemini_generate_json service prompt = (.ok v, [prompt])) ∧
      (∀ e1, parse_json_object_from_text (gemini_response_text resp) = .error e1 →
        (gemini_generate_json service prompt).2 =
          [prompt, prompt ++ gemini_retry_suffix] ∧
        (∀ e, service (prompt ++ gemini_retry_suffix) = .fatal e →
          (gemini_generate_json service prompt).1 = .error e) ∧
        (∀ resp2, service (prompt ++ gemini_retry_suffix) = .success resp2 →
          (∀ v, parse_json_object_from_text (gemini_response_text resp2) = .ok v →
            (gemini_generate_json service prompt).1 = .ok v) ∧
          (∀ e2,
            parse_json_object_from_text (gemini_response_text resp2) = .error e2 →
            (gemini_generate_json service prompt).1 =
              .error (gemini_fail_lead ++ e2))))) := by
  have hsent : (gemini_generate_json service prompt).2 = [prompt] ∨
      (gemini_generate_json service prompt).2 =
        [prompt, prompt ++ gemini_retry_suffix] := by
    cases hs : service prompt with
    | fatal e => rw [gemini_fatal_eq service prompt e hs]; exact Or.inl rfl
    | success resp =>
      cases hp : parse_json_object_from_text (gemini_response_text resp) with
      | ok v => rw [gemini_first_ok_eq service prompt resp v hs hp]; exact Or.inl rfl
      | error e1 =>
        cases hs2 : service (prompt ++ gemini_retry_suffix) with
        | fatal e =>
          rw [gemini_retry_fatal_eq service prompt e1 e resp hs hp hs2]
          exact Or.inr rfl
        | success resp2 =>
          cases hp2 : parse_json_object_from_text (gemini_response_text resp2) with
          | ok v =>
            rw [gemini_retry_ok_eq service prompt e1 resp resp2 v hs hp hs2 hp2]
            exact Or.inr rfl
          | error e2 =>
            rw [gemini_retry_fail_eq service prompt e1 e2 resp resp2 hs hp hs2 hp2]
            exact Or.inr rfl
  refine ⟨?_, ?_, ?_, ?_⟩
  · rcases hsent with h | h <;> rw [h] <;> simp
  · rcases hsent with h | h <;> rw [h] <;> rfl
  · intro e he
    exact gemini_fatal_eq service prompt e he
  · intro resp hs
    refine ⟨fun v hp => gemini_first_ok_eq service prompt resp v hs hp, ?_⟩
    intro e1 hp
    refine ⟨?_, ?_, ?_⟩
    · cases hs2 : service (prompt ++ gemini_retry_suffix) with
      | fatal e => rw [gemini_retry_fatal_eq service prompt e1 e resp hs hp hs2]
      | success resp2 =>
        cases hp2 : parse_json_object_from_text (gemini_response_text resp2) with
        | ok v => rw [gemini_retry_ok_eq service prompt e1 resp resp2 v hs hp hs2 hp2]
        | error e2 =>
          rw [gemini_retry_fail_eq service prompt e1 e2 resp resp2 hs hp hs2 hp2]
    · intro e hs2
      rw [gemini_retry_fatal_eq service prompt e1 e resp hs hp hs2]
    · intro resp2 hs2
      refine ⟨fun v hp2 => ?_, fun e2 hp2 => ?_⟩
      · rw [gemini_retry_ok_eq service prompt e1 resp resp2 v hs hp hs2 hp2]
      · rw [gemini_retry_fail_eq service prompt e1 e2 resp resp2 hs hp hs2 hp2]

/-- C7 witness: a service whose first answer is prose and whose retry
answer is a JSON object — exactly two prompts are sent (the second with
the corrective instruction) and the retry's object is returned. -/
theorem C7_completion_client_retry_witness :
    (gemini_generate_json c7service (str "pick a tone")).2 =
      [str "pick a tone", str "pick a tone" ++ gemini_retry_suffix] ∧
    (gemini_generate_json c7service (str "pick a tone")).1 =
      .ok (Json.jobj [(str "sel", Json.jnum (str "2"))]) := by
  obtain ⟨_, hfail⟩ :=
    (C7_completion_client_retry c7service (str "pick a tone")).2.2.2
      (Json.jobj [(str "text", Json.jstr (str "no json here"))]) rfl
  obtain ⟨hsent, _, hresp2⟩ := hfail
    (str "Invalid JSON from Gemini: no json here") rfl
  obtain ⟨hok2, _⟩ := hresp2
    (Json.jobj [(str "text", Json.jstr (str "\x7b\x22sel\x22:2\x7d"))]) rfl
  exact ⟨hsent, hok2 (Json.jobj [(str "sel", Json.jnum (str "2"))]) rfl⟩

/-! ## Helper lemmas: the Request Analyzer -/

theorem parse_string_items_mem (raw : Json) (key : List Char) (max_items : Nat) :
    ∀ q ∈ parse_string_items raw key max_items, sanitize_line q = q ∧ q ≠ [] := by
  intro q hq
  unfold parse_string_items at hq
  cases h : (jget raw key).bind Json.asArr with
  | none => rw [h] at hq; simp at hq
  | some arr =>
    rw [h] at hq
    dsimp only at hq
    have hq2 := List.mem_of_mem_take hq
    have hq3 := List.mem_filter.mp hq2
    obtain ⟨x, _, rfl⟩ := List.mem_map.mp hq3.1
    refine ⟨sanitize_line_idem x, ?_⟩
    have hne := hq3.2
    simp only [decide_eq_true_eq] at hne
    intro hnil
    exact hne (by rw [hnil]; rfl)

theorem parse_string_items_len (raw : Json) (key : List Char) (max_items : Nat) :
    (parse_string_items raw key max_items).length ≤ max_items := by
  unfold parse_string_items
  cases h : (jget raw key).bind Json.asArr with
  | none => dsimp only; simp
  | some arr => dsimp only; exact List.length_take_le _ _

theorem analyze_ok_search_queries (user_request : List Char) (raw : Json) :
    (analyze_tone_request user_request (.ok raw)).search_queries =
      if (parse_string_items raw (str "search_queries") 3).isEmpty then
        [sanitize_line user_request]
      else parse_string_items raw (str "search_queries") 3 := rfl

theorem analyze_ok_fallback_queries (user_request : List Char) (raw : Json) :
    (analyze_tone_request user_request (.ok raw)).fallback_queries =
      parse_string_items raw (str "fallback_queries") 3 := rfl

theorem analyze_err_eq (user_request e : List Char) :
    analyze_tone_request user_request (.error e) =
      analyze_tone_request user_request (.ok (fallback_analysis_raw user_request)) := rfl

theorem parse_fallback_search_items (user_request : List Char) :
    parse_string_items (fallback_analysis_raw user_request) (str "search_queries") 3 =
      if (sanitize_line user_request).isEmpty then []
      else [sanitize_line user_request] := by
  have h1 : (jget (fallback_analysis_raw user_request) (str "search_queries")).bind
      Json.asArr = some [Json.jstr (sanitize_line user_request)] := rfl
  unfold parse_string_items
  rw [h1]
  dsimp only [List.filterMap_cons, List.filterMap_nil, Json.asStr, List.map_cons,
    List.map_nil]
  rw [sanitize_line_idem]
  by_cases he : (sanitize_line user_request).isEmpty = true
  · rw [if_pos he, List.filter_cons, if_neg (by simp [he])]
    rfl
  · rw [if_neg he, List.filter_cons, if_pos (by simp [he])]
    rfl

/-- C8: on a completion failure the Request Analyzer degrades instead of
aborting — the sanitized raw user text becomes the sole primary search
term, with no gear filter and a fallback-noting description; and for every
completion result the term lists are sanitized (trimmed, single-lined,
idempotently), empties discarded, capped at 3 entries, and an empty
completion-derived list is replaced by the user text as sole term. -/
theorem C8_request_analyzer (user_request : List Char) :
    (∀ e : List Char, analyze_tone_request user_request (.error e) =
      { search_queries := [sanitize_line user_request],
        gear_type := none,
        description :=
          str "Fallback analysis used because Gemini response was invalid.",
        fallback_queries := [],
        explanation_steps :=
          [str "Gemini did not return valid JSON for analysis.",
           str "Used the original user request directly as the main search query.",
           str "Continued with neutral gear filter."] }) ∧
    (∀ raw : Json,
      (analyze_tone_request user_request (.ok raw)).search_queries.length ≤ 3 ∧
      (analyze_tone_request user_request (.ok raw)).fallback_queries.length ≤ 3 ∧
      (∀ q ∈ (analyze_tone_request user_request (.ok raw)).search_queries,
        sanitize_line q = q) ∧
      (∀ q ∈ (analyze_tone_request user_request (.ok raw)).fallback_queries,
        sanitize_line q = q ∧ q ≠ []) ∧
      (parse_string_items raw (str "search_queries") 3 = [] →
        (analyze_tone_request user_request (.ok raw)).search_queries =
          [sanitize_line user_request])) := by
  constructor
  · intro e
    rw [analyze_err_eq]
    have hsq : (analyze_tone_request user_request
        (.ok (fallback_analysis_raw user_request))).search_queries =
        [sanitize_line user_request] := by
      rw [analyze_ok_search_queries, parse_fallback_search_items]
      by_cases he : (sanitize_line user_request).isEmpty = true
      · simp [he]
      · simp [he]
    have hshape : analyze_tone_request user_request
        (.ok (fallback_analysis_raw user_request)) =
        { search_queries := (analyze_tone_request user_request
            (.ok (fallback_analysis_raw user_request))).search_queries,
          gear_type := none,
          description :=
            str "Fallback analysis used because Gemini response was invalid.",
          fallback_queries := [],
          explanation_steps :=
            [str "Gemini did not return valid JSON for analysis.",
             str "Used the original user request directly as the main search query.",
             str "Continued with neutral gear filter."] } := rfl
    rw [hshape, hsq]
  · intro raw
    refine ⟨?_, ?_, ?_, ?_, ?_⟩
    · rw [analyze_ok_search_queries]
      by_cases he : (parse_string_items raw (str "search_queries") 3).isEmpty = true
      · rw [if_pos he]; simp
      · rw [if_neg he]; exact parse_string_items_len raw _ 3
    · rw [analyze_ok_fallback_queries]
      exact parse_string_items_len raw _ 3
    · intro q hq
      rw [analyze_ok_search_queries] at hq
      by_cases he : (parse_string_items raw (str "search_queries") 3).isEmpty = true
      · rw [if_pos he] at hq
        rw [List.mem_singleton.mp hq]
        exact sanitize_line_idem user_request
      · rw [if_neg he] at hq
        exact (parse_string_items_mem raw _ 3 q hq).1
    · intro q hq
      rw [analyze_ok_fallback_queries] at hq
      exact parse_string_items_mem raw _ 3 q hq
    · intro hnil
      rw [analyze_ok_search_queries, hnil]
      rfl

/-- C8 witness: a completion failure on a concrete request produces the
degraded analysis with the sanitized user text as sole term; a concrete
completion answer with messy entries is sanitized, filtered and capped. -/
theorem C8_request_analyzer_witness :
    (analyze_tone_request (str " metal\ntone ") (.error (str "down"))).search_queries =
      [str "metal tone"] ∧
    (analyze_tone_request (str "req")
      (.ok (Json.jobj [(str "search_queries",
        Json.jarr [Json.jstr (str "  a\nb "), Json.jstr (str "   "),
          Json.jstr (str "c"), Json.jstr (str "d"),
          Json.jstr (str "e")])]))).search_queries.length ≤ 3 := by
  constructor
  · rw [(C8_request_analyzer (str " metal\ntone ")).1 (str "down")]
    decide
  · exact ((C8_request_analyzer (str "req")).2 _).1

/-! ## Helper lemmas: the downloader loop -/

theorem download_one_model_skip (download : List Char → Except (List Char) (List Char))
    (component_dir : List Char) (tone_platform : Option (List Char))
    (fs : List (List Char × List Char)) (count : Nat) (model : Json)
    (h : (fs.lookup (model_target_path component_dir tone_platform model)).isSome = true) :
    download_one_model download component_dir tone_platform fs count model =
      (fs, count,
       { model_name := normalize_model_filename
           (value_as_string (jget model (str "name"))) tone_platform,
         status := str "skipped_exists",
         path := model_target_path component_dir tone_platform model }, []) := by
  unfold download_one_model
  rw [if_pos h]

theorem download_one_model_fs (download : List Char → Except (List Char) (List Char))
    (component_dir : List Char) (tone_platform : Option (List Char))
    (fs : List (List Char × List Char)) (count : Nat) (model : Json)
    (p : List Char) (h : (fs.lookup p).isSome = true) :
    ((download_one_model download component_dir tone_platform fs count
      model).1).lookup p = fs.lookup p := by
  unfold download_one_model
  by_cases h1 : (fs.lookup (model_target_path component_dir tone_platform
      model)).isSome = true
  · rw [if_pos h1]
  · rw [if_neg h1]
    by_cases h2 : (value_as_string (jget model (str "model_url"))).isEmpty = true
    · rw [if_pos h2]
    · rw [if_neg h2]
      cases hd : download (value_as_string (jget model (str "model_url"))) with
      | error e => rfl
      | ok bytes =>
        dsimp only
        rw [List.lookup_cons]
        have hne : (p == model_target_path component_dir tone_platform model) = false := by
          rcases Bool.eq_false_or_eq_true
            (p == model_target_path component_dir tone_platform model) with ht | hf
          · have := beq_iff_eq.mp ht
            rw [this] at h
            rw [h] at h1
            exact absurd rfl h1
          · exact hf
        rw [hne]

theorem download_selected_models_fs
    (download : List Char → Except (List Char) (List Char))
    (component_dir : List Char) (tone_platform : Option (List Char)) :
    ∀ (models : List Json) (fs : List (List Char × List Char)) (count : Nat)
      (p : List Char), (fs.lookup p).isSome = true →
      ((download_selected_models download component_dir tone_platform models fs
        count).1).lookup p = fs.lookup p := by
  intro models
  induction models with
  | nil => intro fs count p h; rfl
  | cons m rest ih =>
    intro fs count p h
    rw [download_selected_models]
    dsimp only
    have hstep := download_one_model_fs download component_dir tone_platform fs count m p h
    have htail := ih (download_one_model download component_dir tone_platform fs
      count m).1 (download_one_model download component_dir tone_platform fs
      count m).2.1 p (by rw [hstep]; exact h)
    rw [htail, hstep]

theorem download_selected_models_all_skip
    (download : List Char → Except (List Char) (List Char))
    (component_dir : List Char) (tone_platform : Option (List Char)) :
    ∀ (models : List Json) (fs : List (List Char × List Char)) (count : Nat),
      (∀ m ∈ models,
        (fs.lookup (model_target_path component_dir tone_platform m)).isSome = true) →
      download_selected_models download component_dir tone_platform models fs count =
        (fs, count,
         models.map (fun m =>
           { model_name := normalize_model_filename
               (value_as_string (jget m (str "name"))) tone_platform,
             status := str "skipped_exists",
             path := model_target_path component_dir tone_platform m }), []) := by
  intro models
  induction models with
  | nil => intro fs count _; rfl
  | cons m rest ih =>
    intro fs count h
    rw [download_selected_models]
    have hstep := download_one_model_skip download component_dir tone_platform fs
      count m (h m (List.mem_cons_self _ _))
    rw [hstep]
    dsimp only
    rw [ih fs count (fun m2 hm2 => h m2 (List.mem_cons_of_mem _ hm2))]
    rfl

/-- C9: a selected model whose target file already exists is recorded as
`skipped_exists` with no filesystem change, no count increment and no
fetch; any file present before the loop keeps its contents afterwards;
and when every target exists the whole loop returns the filesystem and
count unchanged, a `skipped_exists` record per model, and an empty fetch
list — so re-running against an existing output directory never
re-downloads or overwrites. -/
theorem C9_downloader_skip_exists :
    (∀ (download : List Char → Except (List Char) (List Char)) component_dir
        tone_platform fs count model,
      (fs.lookup (model_target_path component_dir tone_platform model)).isSome = true →
      download_one_model download component_dir tone_platform fs count model =
        (fs, count,
         { model_name := normalize_model_filename
             (value_as_string (jget model (str "name"))) tone_platform,
           status := str "skipped_exists",
           path := model_target_path component_dir tone_platform model }, [])) ∧
    (∀ (download : List Char → Except (List Char) (List Char)) component_dir
        tone_platform models fs count p,
      (fs.lookup p).isSome = true →
      ((download_selected_models download component_dir tone_platform models fs
        count).1).lookup p = fs.lookup p) ∧
    (∀ (download : List Char → Except (List Char) (List Char)) component_dir
        tone_platform models fs count,
      (∀ m ∈ models,
        (fs.lookup (model_target_path component_dir tone_platform m)).isSome = true) →
      download_selected_models download component_dir tone_platform models fs count =
        (fs, count,
         models.map (fun m =>
           { model_name := normalize_model_filename
               (value_as_string (jget m (str "name"))) tone_platform,
             status := str "skipped_exists",
             path := model_target_path component_dir tone_platform m }), [])) :=
  ⟨download_one_model_skip, download_selected_models_fs,
   download_selected_models_all_skip⟩

/-- C9 witness: a model whose `.nam` target already exists is skipped and
the pre-existing bytes survive the loop unchanged. -/
theorem C9_downloader_skip_exists_witness :
    download_selected_models c9download (str "dir") (some (str "nam")) [c9model]
      c9fs 0 =
      (c9fs, 0,
       [{ model_name := normalize_model_filename
            (value_as_string (jget c9model (str "name"))) (some (str "nam")),
          status := str "skipped_exists",
          path := model_target_path (str "dir") (some (str "nam")) c9model }], []) ∧
    ((download_selected_models c9download (str "dir") (some (str "nam")) [c9model]
      c9fs 0).1).lookup (str "dir/Lead Tone.nam") = some (str "OLD") := by
  constructor
  · exact C9_downloader_skip_exists.2.2 c9download (str "dir") (some (str "nam"))
      [c9model] c9fs 0 (by decide)
  · rw [C9_downloader_skip_exists.2.1 c9download (str "dir") (some (str "nam"))
      [c9model] c9fs 0 (str "dir/Lead Tone.nam") (by decide)]
    decide

/-! ## Helper lemmas: `normalize_gemini_model` -/

theorem allowed_char_facts (c : Char) (h : gemini_model_char_allowed c = true) :
    c ≠ '/' ∧ c ≠ '?' ∧ c ≠ '&' ∧ rustIsWhitespace c = false := by
  unfold gemini_model_char_allowed at h
  rw [Bool.or_eq_true, Bool.or_eq_true, Bool.or_eq_true] at h
  rcases h with ((ha | ha) | ha) | ha
  · have hn : (48 ≤ c.toNat ∧ c.toNat ≤ 57) ∨ (65 ≤ c.toNat ∧ c.toNat ≤ 90) ∨
        (97 ≤ c.toNat ∧ c.toNat ≤ 122) := by
      unfold Char.isAlphanum Char.isAlpha Char.isUpper Char.isLower Char.isDigit at ha
      rw [Bool.or_eq_true, Bool.or_eq_true] at ha
      simp only [Bool.and_eq_true, decide_eq_true_eq] at ha
      rcases ha with (h1 | h1) | h1
      · exact Or.inr (Or.inl ⟨h1.1, h1.2⟩)
      · exact Or.inr (Or.inr ⟨h1.1, h1.2⟩)
      · exact Or.inl ⟨h1.1, h1.2⟩
    have hslash : c ≠ '/' := by
      intro he; rw [he] at hn; revert hn; decide
    have hq : c ≠ '?' := by
      intro he; rw [he] at hn; revert hn; decide
    have hamp : c ≠ '&' := by
      intro he; rw [he] at hn; revert hn; decide
    refine ⟨hslash, hq, hamp, ?_⟩
    rcases Bool.eq_false_or_eq_true (rustIsWhitespace c) with hw | hw
    · exfalso
      unfold rustIsWhitespace at hw
      simp only [Bool.or_eq_true, Bool.and_eq_true, decide_eq_true_eq,
        Nat.beq_eq_true_eq] at hw
      rcases hn with h1 | h1 | h1 <;>
        rcases hw with ((((((((((hw | hw) | hw) | hw) | hw) | hw) | hw) | hw) |
          hw) | hw) | hw) <;> omega
    · exact hw
  · rw [decide_eq_true_eq] at ha
    rw [ha]
    exact ⟨by decide, by decide, by decide, by decide⟩
  · rw [decide_eq_true_eq] at ha
    rw [ha]
    exact ⟨by decide, by decide, by decide, by decide⟩
  · rw [decide_eq_true_eq] at ha
    rw [ha]
    exact ⟨by decide, by decide, by decide, by decide⟩

theorem normalize_gemini_model_allowed (m : Option (List Char)) :
    ∀ c ∈ normalize_gemini_model m, gemini_model_char_allowed c = true := by
  unfold normalize_gemini_model
  cases m with
  | none => intro c hc; revert c; decide
  | some s =>
    dsimp only
    by_cases he : (rustTrim s).isEmpty = true
    · rw [if_pos he]; intro c hc; revert c; decide
    · rw [if_neg he]
      by_cases ha : (rustTrim s).all gemini_model_char_allowed = true
      · rw [if_pos ha]
        exact List.all_eq_true.mp ha
      · rw [if_neg ha]; intro c hc; revert c; decide

/-- C10: the normalized completion-model name is either the fixed default
(when the input is absent, trims to empty, or contains a disallowed
character) or the trimmed input itself with every character ASCII
alphanumeric, `.`, `-` or `_`; consequently the model segment interpolated
into the completion-service URL never contains `/`, `?`, `&`, or
whitespace. -/
theorem C10_normalize_model_safety :
    (∀ m : Option (List Char), ∀ c ∈ normalize_gemini_model m,
      gemini_model_char_allowed c = true) ∧
    (∀ m : Option (List Char),
      normalize_gemini_model m = DEFAULT_GEMINI_MODEL ∨
      ∃ s, m = some s ∧ normalize_gemini_model m = rustTrim s ∧
        (rustTrim s).all gemini_model_char_allowed = true) ∧
    normalize_gemini_model none = DEFAULT_GEMINI_MODEL ∧
    (∀ s, (rustTrim s).isEmpty = true →
      normalize_gemini_model (some s) = DEFAULT_GEMINI_MODEL) ∧
    (∀ s, ¬ (rustTrim s).all gemini_model_char_allowed = true →
      normalize_gemini_model (some s) = DEFAULT_GEMINI_MODEL) ∧
    (∀ m : Option (List Char), ∀ c ∈ normalize_gemini_model m,
      c ≠ '/' ∧ c ≠ '?' ∧ c ≠ '&' ∧ rustIsWhitespace c = false) := by
  refine ⟨normalize_gemini_model_allowed, ?_, rfl, ?_, ?_, ?_⟩
  · intro m
    cases m with
    | none => exact Or.inl rfl
    | some s =>
      unfold normalize_gemini_model
      dsimp only
      by_cases he : (rustTrim s).isEmpty = true
      · rw [if_pos he]; exact Or.inl rfl
      · rw [if_neg he]
        by_cases ha : (rustTrim s).all gemini_model_char_allowed = true
        · rw [if_pos ha]
          exact Or.inr ⟨s, rfl, rfl, ha⟩
        · rw [if_neg ha]; exact Or.inl rfl
  · intro s he
    unfold normalize_gemini_model
    dsimp only
    rw [if_pos he]
  · intro s ha
    unfold normalize_gemini_model
    dsimp only
    by_cases he : (rustTrim s).isEmpty = true
    · rw [if_pos he]
    · rw [if_neg he, if_neg ha]
  · intro m c hc
    exact allowed_char_facts c (normalize_gemini_model_allowed m c hc)

/-- C10 witness: a well-formed requested model is trimmed and kept; a
request containing a slash falls back to the default; the kept name has no
URL-structure characters. -/
theorem C10_normalize_model_safety_witness :
    (normalize_gemini_model (some (str "  gemini-2.0-flash ")) =
        DEFAULT_GEMINI_MODEL ∨
      ∃ s, some (str "  gemini-2.0-flash ") = some s ∧
        normalize_gemini_model (some (str "  gemini-2.0-flash ")) = rustTrim s ∧
        (rustTrim s).all gemini_model_char_allowed = true) ∧
    normalize_gemini_model (some (str "bad/model?x")) = DEFAULT_GEMINI_MODEL :=
  ⟨C10_normalize_model_safety.2.1 (some (str "  gemini-2.0-flash ")),
   C10_normalize_model_safety.2.2.2.2.1 (str "bad/model?x") (by decide)⟩

/-- C5 witness: the prose-wrapped input's extracted value is an object, and
the empty input's failure carries the fixed empty-response diagnostic. -/
theorem C5_structured_response_extractor_witness :
    (Json.jobj [(str "a", Json.jnum (str "1"))]).isObj = true ∧
    (str "Empty Gemini response" = str "Empty Gemini response" ∨
      ∃ excerpt, excerpt.length ≤ 200 ∧
        str "Empty Gemini response" = str "Invalid JSON from Gemini: " ++ excerpt) :=
  ⟨C5_structured_response_extractor.2.2.2.2.1
      (str "noise \x7b\x22a\x22:1\x7d trailing")
      (Json.jobj [(str "a", Json.jnum (str "1"))]) rfl,
   C5_structured_response_extractor.2.2.2.2.2 (str "")
      (str "Empty Gemini response") rfl⟩
